import Mathlib

/-!
# Dynamic clamp from file: the real-time step, the trial bookkeeping and the loader

A shallow embedding of `DClamp` (`dynamic-clamp-file.cpp`, with the same logic in the
older `DClampFile.cpp`).

Modelling conventions.
* A C++ `double` is an exact rational (`ℚ`): every statement below is about the
  arithmetic the code writes down, not about rounding.
* `int trial`, `int idx` and `long long count` start at 0 and are only ever
  incremented or reset to 0, so they are natural numbers; wrap-around is not modelled.
* `std::vector<double> wave` is a `List ℚ`; `wave[i]` with `i` outside the vector is
  undefined behaviour in C++ and makes the step `execute` return `none`. The step is
  embedded a second time as `executeRaw`, where such a read yields an arbitrary value
  `beyond i` and the step goes on as on the machine; the two agree wherever `execute`
  returns (`execute_some_raw`). Statements about what every step does to the counters
  and the other members are made for `executeRaw`, for every `beyond`.
* The widgets of the host are the record `Gui`: the text of a parameter field is the
  number it parses to, `setParameter`/`setState` write a field, `getParameter` reads it.
  Where the code writes a number as text with `QString::number`, the field receives the
  number rounded to 6 significant digits (`QString_number`).
* `wait / dt` is only meant for `dt ≠ 0`: the machine gives an infinity there and the
  padding loop does not come back, while `ℚ` gives 0. Statements about a load assume a
  positive period.
* A file is what the read loop `while (!stream.atEnd()) { stream >> value; ... }` delivers
  for its path: `none` when `file.open` fails, `some samples` otherwise.
-/

namespace DClamp

/-- The text that stands for "nothing loaded" in the `File Name` field. -/
def noFileLoaded : String := "No file loaded."

/-- The fields of the host's panel that the module reads and writes. `setState` is taken
as showing the value the variable has at the call. -/
structure Gui where
  /-- Field `"File Name"` -/
  fileName : String
  /-- Field `"Reversal Potential (mV)"` -/
  reversalPotential : ℚ
  /-- Field `"Gain"` -/
  gain : ℚ
  /-- Field `"Wait time (s)"` -/
  waitTime : ℚ
  /-- Field `"Holding Current (s)"` -/
  holdingCurrent : ℚ
  /-- Field `"Repeat"` -/
  repeat_ : ℚ
  /-- Field `"Length (s)"` (state) -/
  lengthState : ℚ
  /-- Field `"Time (s)"` (state) -/
  timeState : ℚ
  deriving DecidableEq, Repr

/-- The members of `class DClamp` (header, private section), the output channel
`output(0)`, the host's active flag, and what has been emitted on the two signals. -/
structure State where
  systime : ℚ
  Vm : ℚ
  dt : ℚ
  length : ℚ
  wait : ℚ
  Ihold : ℚ
  repeat_ : ℚ
  Erev : ℚ
  gain : ℚ
  gFile : String
  plotRaster : Bool
  totaltime : ℚ
  wave : List ℚ
  spktime : ℚ
  trial : ℕ
  count : ℕ
  spikestate : ℚ
  idx : ℕ
  yrangemin : ℚ
  yrangemax : ℚ
  /-- Channel `output(0)`, the command channel -/
  output : ℚ
  /-- True while the host keeps calling `execute` -/
  active : Bool
  /-- The panel -/
  gui : Gui
  /-- Points sent with `emit newDataPoint(x, y, VLine)`, oldest first -/
  dataPoints : List (ℚ × ℚ)
  /-- Ranges sent with `emit setPlotRange(..)`, oldest first -/
  plotRanges : List (ℚ × ℚ × ℚ × ℚ)
  deriving DecidableEq, Repr

/-- What the module asks of its surroundings: the real-time period in nanoseconds
(`RT::System::getInstance()->getPeriod()`) and the files that can be read. -/
structure Host where
  period : ℕ
  file : String → Option (List ℚ)

/-- Type `update_flags_t` of the host's `DefaultGUIModel`, as far as `DClamp::update` switches on it. -/
inductive UpdateFlag where
  | INIT | MODIFY | PAUSE | UNPAUSE | PERIOD | EXIT
  deriving DecidableEq, Repr

/-- Source: `DClamp::bookkeep` -/
def bookkeep (s : State) : State :=
  { s with
    trial := 0
    count := 0
    systime := 0
    spikestate := 0
    spktime := 0
    idx := 0
    totaltime := s.length + s.wait }

/-- Source: `DClamp::togglePlot` (`adjustSize()` only resizes the window). -/
def togglePlot (shown : Bool) (s : State) : State :=
  { s with plotRaster := shown }

/-- Source: `DClamp::adjustPlot` -/
def adjustPlot (s : State) : State :=
  if 10 < s.repeat_ then
    { s with plotRanges := s.plotRanges ++ [(0, s.length, 0, s.repeat_ + 1)] }
  else
    { s with plotRanges := s.plotRanges ++ [(0, s.length, 0, 11)] }

/-- The padding loop `for (int i = 0; i < wait / dt; i++) wave.push_back(Ihold);`
entered with loop variable `i`, where `bound` is the value of `wait / dt`. -/
def padLoop (bound Ihold : ℚ) (i : ℕ) (wave : List ℚ) : List ℚ :=
  if (i : ℚ) < bound then padLoop bound Ihold (i + 1) (wave ++ [Ihold]) else wave
termination_by (⌈bound⌉.toNat - i)
decreasing_by
  have h1 : ((i : ℤ) : ℚ) < bound := by exact_mod_cast ‹(i : ℚ) < bound›
  have h2 : (i : ℤ) < ⌈bound⌉ := Int.lt_ceil.mpr h1
  omega

/-- The body both loaders share once a file name is known: clear the buffer, read the
samples if the file opens, set and publish the length, adjust the plot, pad. -/
def loadBody (h : Host) (fileName : String) (s : State) : State :=
  let s1 := { s with wave := [] }
  let s2 :=
    match h.file fileName with
    | some samples => { s1 with wave := s1.wave ++ samples }
    | none => s1
  let s3 := { s2 with length := (s2.wave.length : ℚ) * s2.dt }
  let s4 := { s3 with gui := { s3.gui with lengthState := s3.length } }
  let s5 := adjustPlot s4
  { s5 with wave := padLoop (s5.wait / s5.dt) s5.Ihold 0 s5.wave }

/-- Source: `DClamp::loadFile(QString)` -/
def loadFile (h : Host) (fileName : String) (s : State) : State :=
  if fileName = noFileLoaded then s else loadBody h fileName s

/-- Source: `DClamp::loadFile()`: `picked` is the file selected in the dialog, `none` when the
dialog is dismissed. -/
def loadFileDialog (h : Host) (picked : Option String) (s : State) : State :=
  match picked with
  | some fileName =>
    loadBody h fileName { s with gui := { s.gui with fileName := fileName } }
  | none => { s with gui := { s.gui with fileName := noFileLoaded } }

/-- The number that the text written by `QString::number(x)` stands for. Qt formats a
double with format `'g'` and precision 6 unless told otherwise, that is, rounded to 6
significant decimal digits: with `10 ^ e <= |x| < 10 ^ (e + 1)` the magnitude is rounded
to a multiple of `10 ^ (e - 5)`. An exact tie goes up in magnitude. -/
def QString_number (x : ℚ) : ℚ :=
  if x = 0 then 0
  else
    let scale : ℚ :=
      if 1 ≤ |x| then 10 ^ 5 / 10 ^ Nat.log 10 ⌊|x|⌋.toNat
      else 10 ^ 5 * 10 ^ Nat.clog 10 ⌈|x|⁻¹⌉.toNat
    let m : ℚ := (⌊|x| * scale + 1 / 2⌋ : ℚ) / scale
    if x < 0 then -m else m

/-- Source: `case INIT` of `DClamp::update` -/
def updateInit (s : State) : State :=
  { s with gui :=
      { lengthState := s.length
        fileName := s.gFile
        reversalPotential := QString_number (s.Erev * 1000)
        gain := QString_number s.gain
        waitTime := QString_number s.wait
        holdingCurrent := QString_number (s.Ihold * (1 / 10 ^ 9))
        repeat_ := QString_number s.repeat_
        timeState := s.systime } }

/-- Source: `case MODIFY` of `DClamp::update` -/
def updateModify (h : Host) (s : State) : State :=
  let s1 := { s with gFile := s.gui.fileName }
  let s2 := { s1 with Erev := s1.gui.reversalPotential / 1000 }
  let s3 := { s2 with gain := s2.gui.gain }
  let s4 := { s3 with wait := s3.gui.waitTime }
  let s5 := { s4 with Ihold := s4.gui.holdingCurrent * 10 ^ 9 }
  let s6 := { s5 with repeat_ := s5.gui.repeat_ }
  bookkeep (loadFile h s6.gFile s6)

/-- Source: `case PAUSE` of `DClamp::update` -/
def updatePause (s : State) : State :=
  { s with output := 0 }

/-- Source: `case UNPAUSE` of `DClamp::update` -/
def updateUnpause (s : State) : State :=
  bookkeep s

/-- Source: `case PERIOD` of `DClamp::update` -/
def updatePeriod (h : Host) (s : State) : State :=
  let s1 := { s with dt := (h.period : ℚ) * (1 / 10 ^ 9) }
  loadFile h s1.gFile s1

/-- Source: `DClamp::update` -/
def update (h : Host) (flag : UpdateFlag) (s : State) : State :=
  match flag with
  | .INIT => updateInit s
  | .MODIFY => updateModify h s
  | .PAUSE => updatePause s
  | .UNPAUSE => updateUnpause s
  | .PERIOD => updatePeriod h s
  | .EXIT => s

/-- Modelled from the spec: the host's `DefaultGUIModel::pause(bool)`, which `execute`
calls and which is not part of the module's sources. Pausing forces the output to zero
and suspends ticking, unpausing resumes with a fresh bookkeeping reset; the module's part
of either is its own `update(PAUSE)` / `update(UNPAUSE)`. -/
def pause (p : Bool) (s : State) : State :=
  let s1 := { s with active := !p }
  if p then updatePause s1 else updateUnpause s1

/-- Source: `DClamp::execute`, called with the values of `input(0)` and `input(1)`.
`none` is the out-of-range read `wave[idx]`. -/
def execute (in0 in1 : ℚ) (s : State) : Option State :=
  let s1 := { s with Vm := in0 }
  let s2 := { s1 with systime := (s1.count : ℚ) * s1.dt }
  let s3 :=
    if s2.plotRaster = true ∧ in1 = 1 then
      { s2 with dataPoints := s2.dataPoints ++
          [(s2.systime - s2.totaltime * (s2.trial : ℚ), ((s2.trial + 1 : ℕ) : ℚ))] }
    else s2
  let s4? : Option State :=
    if (s3.trial : ℚ) < s3.repeat_ then
      match s3.wave[s3.idx]? with
      | some w => some { s3 with output := -1 * w * (s3.Vm - s3.Erev) * s3.gain, idx := s3.idx + 1 }
      | none => none
    else some (pause true s3)
  match s4? with
  | none => none
  | some s4 =>
    let s5 := { s4 with count := s4.count + 1 }
    if s5.systime > s5.totaltime * ((s5.trial + 1 : ℕ) : ℚ) then
      some { s5 with trial := s5.trial + 1, idx := 0 }
    else some s5

/-- The host calling `execute` once per tick, with the inputs of each tick in turn. -/
def run (s : State) : List (ℚ × ℚ) → Option State
  | [] => some s
  | i :: rest =>
    match execute i.1 i.2 s with
    | some s' => run s' rest
    | none => none

/-- Source: `DClamp::execute` once more, with the read `wave[idx]` taken the way the
machine performs it: inside the buffer it is the stored sample, past the end of the buffer
(where the language leaves the behaviour undefined) it is whatever lies there, written
`beyond idx`. Everything else is as in `execute`, and the two agree whenever `execute`
returns. -/
def executeRaw (beyond : ℕ → ℚ) (in0 in1 : ℚ) (s : State) : State :=
  let s1 := { s with Vm := in0 }
  let s2 := { s1 with systime := (s1.count : ℚ) * s1.dt }
  let s3 :=
    if s2.plotRaster = true ∧ in1 = 1 then
      { s2 with dataPoints := s2.dataPoints ++
          [(s2.systime - s2.totaltime * (s2.trial : ℚ), ((s2.trial + 1 : ℕ) : ℚ))] }
    else s2
  let s4 :=
    if (s3.trial : ℚ) < s3.repeat_ then
      { s3 with
        output := -1 * s3.wave.getD s3.idx (beyond s3.idx) * (s3.Vm - s3.Erev) * s3.gain
        idx := s3.idx + 1 }
    else pause true s3
  let s5 := { s4 with count := s4.count + 1 }
  if s5.systime > s5.totaltime * ((s5.trial + 1 : ℕ) : ℚ) then
    { s5 with trial := s5.trial + 1, idx := 0 }
  else s5

/-- The host calling `executeRaw` once per tick, with the inputs of each tick in turn. -/
def runRaw (beyond : ℕ → ℚ) (s : State) (ins : List (ℚ × ℚ)) : State :=
  ins.foldl (fun st i => executeRaw beyond i.1 i.2 st) s

/-- Source: `DClamp::initParameters`, on the members as the constructor finds them. -/
def initParameters (h : Host) (s : State) : State :=
  let s1 := { s with length := 1, repeat_ := 1, Ihold := 0, wait := 1, gain := 1,
                     Erev := -(70 / 1000) }
  let s2 := { s1 with dt := (h.period : ℚ) * (1 / 10 ^ 9) }
  let s3 := { s2 with yrangemin := 0, yrangemax := 10, gFile := noFileLoaded }
  bookkeep (togglePlot true s3)

/-- The members before the constructor body runs: an empty vector, and zero for the
numbers the class leaves without an initial value. -/
def blank : State :=
  { systime := 0, Vm := 0, dt := 0, length := 0, wait := 0, Ihold := 0, repeat_ := 0,
    Erev := 0, gain := 0, gFile := "", plotRaster := false, totaltime := 0, wave := [],
    spktime := 0, trial := 0, count := 0, spikestate := 0, idx := 0, yrangemin := 0,
    yrangemax := 0, output := 0, active := false,
    gui := { fileName := "", reversalPotential := 0, gain := 0, waitTime := 0,
             holdingCurrent := 0, repeat_ := 0, lengthState := 0, timeState := 0 },
    dataPoints := [], plotRanges := [] }

/-- The constructor `DClamp::DClamp`: `initParameters()` then `update(INIT)`. -/
def construct (h : Host) : State :=
  update h .INIT (initParameters h blank)

/-- The user typing a configuration into the panel (the state fields are not editable). -/
def enter (fileName : String) (reversalPotential gain waitTime holdingCurrent repeat_ : ℚ)
    (s : State) : State :=
  { s with gui := { s.gui with fileName := fileName, reversalPotential := reversalPotential,
                               gain := gain, waitTime := waitTime,
                               holdingCurrent := holdingCurrent, repeat_ := repeat_ } }

/-- What a step never writes: the buffer, the period, the trial length and period, the
committed parameters and the file path. -/
def SameSetup (s t : State) : Prop :=
  t.wave = s.wave ∧ t.dt = s.dt ∧ t.length = s.length ∧ t.totaltime = s.totaltime ∧
  t.wait = s.wait ∧ t.Ihold = s.Ihold ∧ t.repeat_ = s.repeat_ ∧ t.Erev = s.Erev ∧
  t.gain = s.gain ∧ t.gFile = s.gFile ∧ t.plotRaster = s.plotRaster

instance (s t : State) : Decidable (SameSetup s t) := by
  unfold SameSetup
  infer_instance

/-- A commit on a freshly constructed module: the configuration is typed into the panel
and the modify button is pressed (`update(MODIFY)`). -/
def commitOf (h : Host) (fileName : String)
    (reversalPotential gain waitTime holdingCurrent repeat_ : ℚ) : State :=
  update h .MODIFY
    (enter fileName reversalPotential gain waitTime holdingCurrent repeat_ (construct h))

/-- The modify button followed by the unpause button: `update(MODIFY)`, `update(UNPAUSE)`. -/
def commitAndStart (h : Host) (s : State) : State :=
  update h .UNPAUSE (update h .MODIFY s)

/-- A host with a one-second period and a single readable file, `wave.txt`, holding the
three samples 0.1, 0.2, 0.3. -/
def demoHost : Host :=
  { period := 10 ^ 9
    file := fun p => if p = "wave.txt" then some [1 / 10, 2 / 10, 3 / 10] else none }

/-- The module right after the commit of `wave.txt` with reversal potential -70 mV, gain 1,
wait 1 s, holding current 0 and `repeat_` trials. -/
def demoCommit (repeat_ : ℚ) : State :=
  commitOf demoHost "wave.txt" (-70) 1 1 0 repeat_

/-- The state `demoCommit`, then unpaused. -/
def demoStart (repeat_ : ℚ) : State :=
  update demoHost .UNPAUSE (demoCommit repeat_)

/-- The module after the commit of `gone.txt`, a file the host cannot open (same numbers
as `demoCommit 2`). -/
def demoGone : State :=
  commitOf demoHost "gone.txt" (-70) 1 1 0 2

/-- The module after the commit of the unopenable `gone.txt` with one trial and a
holding current entered as `1e-9` (stored: 1). -/
def demoGoneHold : State :=
  commitOf demoHost "gone.txt" (-70) 1 1 (1 / 10 ^ 9) 1

/-- The module after the commit of `wave.txt` with two trials and a holding current
entered as `2e-9` (stored: 2). -/
def demoHold : State :=
  commitOf demoHost "wave.txt" (-70) 1 1 (2 / 10 ^ 9) 2

/-- The module after the commit of `wave.txt` with a holding current entered with nine
significant digits, `0.00146484375` (stored: 1464843.75). -/
def demoFine : State :=
  commitOf demoHost "wave.txt" (-70) 1 1 (146484375 / 10 ^ 11) 2

/-- A host with a one-second period that can open no file at all. -/
def emptyHost : Host :=
  { period := 10 ^ 9
    file := fun _ => none }

/-- A host with a two-second period and the same `wave.txt`. -/
def slowHost : Host :=
  { period := 2 * 10 ^ 9
    file := fun p => if p = "wave.txt" then some [1 / 10, 2 / 10, 3 / 10] else none }

/-- A host with a period of a tenth of a second and the same `wave.txt`. -/
def fastHost : Host :=
  { period := 10 ^ 8
    file := fun p => if p = "wave.txt" then some [1 / 10, 2 / 10, 3 / 10] else none }

/-! ## Loader and bookkeeping lemmas -/

theorem padLoop_eq (bound Ihold : ℚ) (i : ℕ) (wave : List ℚ) :
    padLoop bound Ihold i wave = wave ++ List.replicate (⌈bound⌉.toNat - i) Ihold := by
  induction i, wave using padLoop.induct bound Ihold with
  | case1 i wave hlt ih =>
    rw [padLoop, if_pos hlt, ih]
    have h1 : ((i : ℤ) : ℚ) < bound := by exact_mod_cast hlt
    have h2 : (i : ℤ) < ⌈bound⌉ := Int.lt_ceil.mpr h1
    have h3 : ⌈bound⌉.toNat - i = (⌈bound⌉.toNat - (i + 1)) + 1 := by omega
    rw [h3, List.replicate_succ, List.append_assoc]
    rfl
  | case2 i wave hge =>
    rw [padLoop, if_neg hge]
    have h1 : ¬ ((i : ℤ) : ℚ) < bound := by exact_mod_cast hge
    have h2 : ¬ (i : ℤ) < ⌈bound⌉ := fun h => h1 (Int.lt_ceil.mp h)
    have h3 : ⌈bound⌉.toNat - i = 0 := by omega
    simp [h3]

theorem demoStart_fields (r : ℚ) :
    (demoStart r).wave = [1 / 10, 2 / 10, 3 / 10, 0] ∧ (demoStart r).idx = 0 ∧
    (demoStart r).trial = 0 ∧ (demoStart r).count = 0 ∧ (demoStart r).repeat_ = r ∧
    (demoStart r).dt = 1 ∧ (demoStart r).totaltime = 4 ∧ (demoStart r).Erev = -(7 / 100) ∧
    (demoStart r).gain = 1 ∧ (demoStart r).Ihold = 0 ∧ (demoStart r).length = 3 ∧
    (demoStart r).wait = 1 := by
  have hn : ¬ ("wave.txt" = "No file loaded.") := by decide
  simp only [demoStart, demoCommit, commitOf, update, updateUnpause, updateModify, bookkeep, loadFile, loadBody,
    adjustPlot, enter, construct, updateInit, initParameters, togglePlot, blank, demoHost,
    noFileLoaded, padLoop_eq, hn, if_false, if_true]
  split_ifs <;> norm_num

theorem loadBody_eq (h : Host) (f : String) (s : State) :
    loadBody h f s =
      { s with
        wave := (h.file f).getD [] ++ List.replicate ⌈s.wait / s.dt⌉.toNat s.Ihold
        length := (((h.file f).getD []).length : ℚ) * s.dt
        gui := { s.gui with lengthState := (((h.file f).getD []).length : ℚ) * s.dt }
        plotRanges := s.plotRanges ++ [(0, (((h.file f).getD []).length : ℚ) * s.dt, 0,
          if 10 < s.repeat_ then s.repeat_ + 1 else 11)] } := by
  unfold loadBody adjustPlot
  cases h.file f <;> by_cases hr : 10 < s.repeat_ <;>
    simp [hr, padLoop_eq]

theorem loadFile_noFile (h : Host) (s : State) : loadFile h noFileLoaded s = s := by
  simp [loadFile]

theorem loadFile_of_ne (h : Host) (f : String) (s : State) (hne : f ≠ noFileLoaded) :
    loadFile h f s = loadBody h f s := by
  simp [loadFile, hne]

/-- The whole effect of a commit whose file name is not the "nothing loaded" text. -/
theorem updateModify_eq (h : Host) (s : State) (hne : s.gui.fileName ≠ noFileLoaded) :
    updateModify h s =
      { s with
        gFile := s.gui.fileName
        Erev := s.gui.reversalPotential / 1000
        gain := s.gui.gain
        wait := s.gui.waitTime
        Ihold := s.gui.holdingCurrent * 10 ^ 9
        repeat_ := s.gui.repeat_
        wave := (h.file s.gui.fileName).getD [] ++
          List.replicate ⌈s.gui.waitTime / s.dt⌉.toNat (s.gui.holdingCurrent * 10 ^ 9)
        length := (((h.file s.gui.fileName).getD []).length : ℚ) * s.dt
        gui := { s.gui with
          lengthState := (((h.file s.gui.fileName).getD []).length : ℚ) * s.dt }
        plotRanges := s.plotRanges ++
          [(0, (((h.file s.gui.fileName).getD []).length : ℚ) * s.dt, 0,
            if 10 < s.gui.repeat_ then s.gui.repeat_ + 1 else 11)]
        trial := 0
        count := 0
        systime := 0
        spikestate := 0
        spktime := 0
        idx := 0
        totaltime := (((h.file s.gui.fileName).getD []).length : ℚ) * s.dt + s.gui.waitTime } := by
  unfold updateModify
  simp only [loadFile_of_ne h _ _ hne, loadBody_eq, bookkeep]

/-- The whole effect of a commit whose file name is the "nothing loaded" text. -/
theorem updateModify_eq_noFile (h : Host) (s : State) (heq : s.gui.fileName = noFileLoaded) :
    updateModify h s =
      { s with
        gFile := s.gui.fileName
        Erev := s.gui.reversalPotential / 1000
        gain := s.gui.gain
        wait := s.gui.waitTime
        Ihold := s.gui.holdingCurrent * 10 ^ 9
        repeat_ := s.gui.repeat_
        trial := 0
        count := 0
        systime := 0
        spikestate := 0
        spktime := 0
        idx := 0
        totaltime := s.length + s.gui.waitTime } := by
  unfold updateModify
  simp only [heq, loadFile_noFile, bookkeep]

/-- The whole effect of a period change when a file name has been committed. -/
theorem updatePeriod_eq (h : Host) (s : State) (hne : s.gFile ≠ noFileLoaded) :
    updatePeriod h s =
      { s with
        dt := (h.period : ℚ) * (1 / 10 ^ 9)
        wave := (h.file s.gFile).getD [] ++
          List.replicate ⌈s.wait / ((h.period : ℚ) * (1 / 10 ^ 9))⌉.toNat s.Ihold
        length := (((h.file s.gFile).getD []).length : ℚ) * ((h.period : ℚ) * (1 / 10 ^ 9))
        gui := { s.gui with
          lengthState :=
            (((h.file s.gFile).getD []).length : ℚ) * ((h.period : ℚ) * (1 / 10 ^ 9)) }
        plotRanges := s.plotRanges ++
          [(0, (((h.file s.gFile).getD []).length : ℚ) * ((h.period : ℚ) * (1 / 10 ^ 9)), 0,
            if 10 < s.repeat_ then s.repeat_ + 1 else 11)] } := by
  unfold updatePeriod
  simp only [loadFile_of_ne h _ _ hne, loadBody_eq]

/-- The whole effect of a period change while the file name is the "nothing loaded" text. -/
theorem updatePeriod_eq_noFile (h : Host) (s : State) (heq : s.gFile = noFileLoaded) :
    updatePeriod h s = { s with dt := (h.period : ℚ) * (1 / 10 ^ 9) } := by
  unfold updatePeriod
  simp only [heq, loadFile_noFile]

/-- The fields of a first commit whose file name is not the "nothing loaded" text. -/
theorem commitOf_fields (h : Host) (f : String) (e g w i r : ℚ) (hne : f ≠ noFileLoaded) :
    (commitOf h f e g w i r).dt = (h.period : ℚ) * (1 / 10 ^ 9) ∧
    (commitOf h f e g w i r).wave = (h.file f).getD [] ++
      List.replicate ⌈w / ((h.period : ℚ) * (1 / 10 ^ 9))⌉.toNat (i * 10 ^ 9) ∧
    (commitOf h f e g w i r).length =
      (((h.file f).getD []).length : ℚ) * ((h.period : ℚ) * (1 / 10 ^ 9)) ∧
    (commitOf h f e g w i r).totaltime =
      (((h.file f).getD []).length : ℚ) * ((h.period : ℚ) * (1 / 10 ^ 9)) + w ∧
    (commitOf h f e g w i r).wait = w ∧ (commitOf h f e g w i r).Ihold = i * 10 ^ 9 ∧
    (commitOf h f e g w i r).repeat_ = r ∧ (commitOf h f e g w i r).Erev = e / 1000 ∧
    (commitOf h f e g w i r).gain = g ∧ (commitOf h f e g w i r).gFile = f ∧
    (commitOf h f e g w i r).trial = 0 ∧ (commitOf h f e g w i r).count = 0 ∧
    (commitOf h f e g w i r).idx = 0 ∧ (commitOf h f e g w i r).gui.fileName = f := by
  have hne2 : (enter f e g w i r (construct h)).gui.fileName ≠ noFileLoaded := hne
  simp only [commitOf, update, updateModify_eq _ _ hne2]
  simp [enter, construct, update, updateInit, initParameters, togglePlot, bookkeep, blank]

/-- The fields after commit and unpause, for a file name that is not the "nothing loaded"
text. -/
theorem commitAndStart_fields (h : Host) (s : State) (hne : s.gui.fileName ≠ noFileLoaded) :
    (commitAndStart h s).trial = 0 ∧ (commitAndStart h s).count = 0 ∧
    (commitAndStart h s).idx = 0 ∧ (commitAndStart h s).dt = s.dt ∧
    (commitAndStart h s).repeat_ = s.gui.repeat_ ∧
    (commitAndStart h s).wave = (h.file s.gui.fileName).getD [] ++
      List.replicate ⌈s.gui.waitTime / s.dt⌉.toNat (s.gui.holdingCurrent * 10 ^ 9) ∧
    (commitAndStart h s).length = (((h.file s.gui.fileName).getD []).length : ℚ) * s.dt ∧
    (commitAndStart h s).totaltime =
      (((h.file s.gui.fileName).getD []).length : ℚ) * s.dt + s.gui.waitTime ∧
    (commitAndStart h s).Erev = s.gui.reversalPotential / 1000 ∧
    (commitAndStart h s).gain = s.gui.gain ∧
    (commitAndStart h s).Ihold = s.gui.holdingCurrent * 10 ^ 9 ∧
    (commitAndStart h s).wait = s.gui.waitTime := by
  rw [show commitAndStart h s = bookkeep (updateModify h s) from rfl, updateModify_eq h s hne]
  exact ⟨rfl, rfl, rfl, rfl, rfl, rfl, rfl, rfl, rfl, rfl, rfl, rfl⟩

/-- The fields of a freshly constructed module that the loader reads. -/
theorem construct_fields (h : Host) :
    (construct h).dt = (h.period : ℚ) * (1 / 10 ^ 9) ∧ (construct h).wait = 1 ∧
    (construct h).Ihold = 0 ∧ (construct h).wave = [] ∧ (construct h).repeat_ = 1 ∧
    (construct h).gFile = noFileLoaded ∧ (construct h).trial = 0 ∧ (construct h).idx = 0 ∧
    (construct h).count = 0 :=
  ⟨rfl, rfl, rfl, rfl, rfl, rfl, rfl, rfl, rfl⟩

/-- The first step after unpause on a freshly constructed module, where nothing has been
loaded (empty buffer, one trial by default), is the read `wave[0]` outside the buffer. -/
theorem construct_first_step_out_of_range (h : Host) (in0 in1 : ℚ) :
    execute in0 in1 (update h .UNPAUSE (construct h)) = none := by
  unfold execute
  by_cases hp : (update h .UNPAUSE (construct h)).plotRaster = true ∧ in1 = 1
  · simp only [hp, and_self, if_true]
    norm_num [update, updateUnpause, bookkeep, construct, updateInit, initParameters,
      togglePlot, blank]
  · simp only [hp, if_false]
    norm_num [update, updateUnpause, bookkeep, construct, updateInit, initParameters,
      togglePlot, blank]

theorem demoStart_eq (r : ℚ) : demoStart r = demoCommit r := rfl

/-! ## The real-time step -/

/-- The whole effect of a step that takes the active branch with an in-range cursor. -/
theorem execute_active_eq (s : State) (in0 in1 w : ℚ)
    (hrun : (s.trial : ℚ) < s.repeat_) (hidx : s.wave[s.idx]? = some w) :
    execute in0 in1 s = some
      { s with
        Vm := in0
        systime := (s.count : ℚ) * s.dt
        dataPoints :=
          if s.plotRaster = true ∧ in1 = 1 then
            s.dataPoints ++ [((s.count : ℚ) * s.dt - s.totaltime * (s.trial : ℚ),
              ((s.trial + 1 : ℕ) : ℚ))]
          else s.dataPoints
        output := -1 * w * (in0 - s.Erev) * s.gain
        count := s.count + 1
        idx := if (s.count : ℚ) * s.dt > s.totaltime * ((s.trial + 1 : ℕ) : ℚ) then 0
               else s.idx + 1
        trial := if (s.count : ℚ) * s.dt > s.totaltime * ((s.trial + 1 : ℕ) : ℚ) then s.trial + 1
                 else s.trial } := by
  unfold execute
  by_cases hb : (s.count : ℚ) * s.dt > s.totaltime * ((s.trial + 1 : ℕ) : ℚ) <;>
  by_cases hp : s.plotRaster = true ∧ in1 = 1 <;>
  simp only [hrun, hidx, hb, hp, if_true, if_false, and_self]

/-- C1: in a state whose run is not complete (`trial < repeat`) and whose cursor `idx` is a
valid index of `wave`, holding the sample `w`, one `execute` step with input voltage `in0`
sets the command to `-1 * w * (in0 - Erev) * gain`, and leaves the cursor at `idx + 1` when
the boundary test of the same step (`systime > totaltime * (trial + 1)` with
`systime = count * dt`) fails and at `0` when it succeeds. -/
theorem execute_active_command (s : State) (in0 in1 w : ℚ)
    (hrun : (s.trial : ℚ) < s.repeat_) (hidx : s.wave[s.idx]? = some w) :
    ∃ s', execute in0 in1 s = some s' ∧
      s'.output = -1 * w * (in0 - s.Erev) * s.gain ∧
      s'.idx = (if (s.count : ℚ) * s.dt > s.totaltime * ((s.trial + 1 : ℕ) : ℚ) then 0
                else s.idx + 1) :=
  ⟨_, execute_active_eq s in0 in1 w hrun hidx, rfl, rfl⟩

/-- Witness of C1 -/
theorem execute_active_command_witness :
    (((demoStart 2).trial : ℚ) < (demoStart 2).repeat_) ∧
    (demoStart 2).wave[(demoStart 2).idx]? = some (1 / 10) ∧
    ∃ s', execute (-(65 / 1000)) 0 (demoStart 2) = some s' ∧
      s'.output = -1 * (1 / 10) * (-(65 / 1000) - (demoStart 2).Erev) * (demoStart 2).gain ∧
      s'.idx = (if ((demoStart 2).count : ℚ) * (demoStart 2).dt >
                    (demoStart 2).totaltime * (((demoStart 2).trial + 1 : ℕ) : ℚ) then 0
                else (demoStart 2).idx + 1) :=
  have h1 : (((demoStart 2).trial : ℚ) < (demoStart 2).repeat_) := by
    obtain ⟨-, -, ht, -, hr, -⟩ := demoStart_fields 2
    rw [ht, hr]; norm_num
  have h2 : (demoStart 2).wave[(demoStart 2).idx]? = some (1 / 10) := by
    obtain ⟨hw, hi, -⟩ := demoStart_fields 2
    rw [hw, hi]; rfl
  ⟨h1, h2, execute_active_command (demoStart 2) (-(65 / 1000)) 0 (1 / 10) h1 h2⟩

/-- The whole effect of a step that takes the completed branch. -/
theorem execute_complete_eq (s : State) (in0 in1 : ℚ) (hdone : s.repeat_ ≤ (s.trial : ℚ)) :
    execute in0 in1 s = some
      { s with
        Vm := in0
        systime := (s.count : ℚ) * s.dt
        dataPoints :=
          if s.plotRaster = true ∧ in1 = 1 then
            s.dataPoints ++ [((s.count : ℚ) * s.dt - s.totaltime * (s.trial : ℚ),
              ((s.trial + 1 : ℕ) : ℚ))]
          else s.dataPoints
        output := 0
        active := false
        count := s.count + 1
        idx := if (s.count : ℚ) * s.dt > s.totaltime * ((s.trial + 1 : ℕ) : ℚ) then 0
               else s.idx
        trial := if (s.count : ℚ) * s.dt > s.totaltime * ((s.trial + 1 : ℕ) : ℚ) then s.trial + 1
                 else s.trial } := by
  have hrun : ¬ (s.trial : ℚ) < s.repeat_ := not_lt.mpr hdone
  unfold execute
  by_cases hb : (s.count : ℚ) * s.dt > s.totaltime * ((s.trial + 1 : ℕ) : ℚ) <;>
  by_cases hp : s.plotRaster = true ∧ in1 = 1 <;>
  simp only [hrun, hb, hp, pause, updatePause, if_true, if_false, and_self, Bool.not_true]

/-- C2: in a state whose run is complete (`trial >= repeat`), one `execute` step returns
(whatever the cursor and the buffer are), leaves the command at 0 and the module paused,
does not move the cursor forward (it stays, or is reset to 0 by the boundary test), and
does not look at the waveform: with any other buffer in place the step does the same. -/
theorem execute_complete_pauses (s : State) (in0 in1 : ℚ)
    (hdone : s.repeat_ ≤ (s.trial : ℚ)) :
    ∃ s', execute in0 in1 s = some s' ∧ s'.output = 0 ∧ s'.active = false ∧
      s'.idx = (if (s.count : ℚ) * s.dt > s.totaltime * ((s.trial + 1 : ℕ) : ℚ) then 0
                else s.idx) ∧
      s'.idx ≤ s.idx ∧ s'.wave = s.wave ∧
      ∀ w : List ℚ, execute in0 in1 { s with wave := w } = some { s' with wave := w } := by
  refine ⟨_, execute_complete_eq s in0 in1 hdone, rfl, rfl, rfl, ?_, rfl, ?_⟩
  · show (if _ then 0 else s.idx) ≤ s.idx
    split_ifs <;> simp
  · intro w
    rw [execute_complete_eq { s with wave := w } in0 in1 hdone]

/-- Witness of C2: zero trials asked for, right after a reset, with a nonzero command
left on the output. -/
theorem execute_complete_pauses_witness :
    ({ demoStart 0 with output := 5 } : State).repeat_ ≤
      ((({ demoStart 0 with output := 5 } : State).trial : ℕ) : ℚ) ∧
    ∃ s', execute 1 0 { demoStart 0 with output := 5 } = some s' ∧ s'.output = 0 ∧
      s'.active = false ∧
      s'.idx = (if ((({ demoStart 0 with output := 5 } : State).count : ℕ) : ℚ) *
                      ({ demoStart 0 with output := 5 } : State).dt >
                    ({ demoStart 0 with output := 5 } : State).totaltime *
                      ((({ demoStart 0 with output := 5 } : State).trial + 1 : ℕ) : ℚ) then 0
                else ({ demoStart 0 with output := 5 } : State).idx) ∧
      s'.idx ≤ ({ demoStart 0 with output := 5 } : State).idx ∧
      s'.wave = ({ demoStart 0 with output := 5 } : State).wave ∧
      ∀ w : List ℚ, execute 1 0 { ({ demoStart 0 with output := 5 } : State) with wave := w } =
        some { s' with wave := w } :=
  have h1 : ({ demoStart 0 with output := 5 } : State).repeat_ ≤
      ((({ demoStart 0 with output := 5 } : State).trial : ℕ) : ℚ) := by
    obtain ⟨-, -, ht, -, hr, -⟩ := demoStart_fields 0
    show (demoStart 0).repeat_ ≤ (((demoStart 0).trial : ℕ) : ℚ)
    rw [ht, hr]; norm_num
  ⟨h1, execute_complete_pauses { demoStart 0 with output := 5 } 1 0 h1⟩

/-- An active step whose cursor is outside the buffer is the undefined read. -/
theorem execute_out_of_range (s : State) (in0 in1 : ℚ)
    (hrun : (s.trial : ℚ) < s.repeat_) (hidx : s.wave.length ≤ s.idx) :
    execute in0 in1 s = none := by
  have hget : s.wave[s.idx]? = none := List.getElem?_eq_none hidx
  unfold execute
  by_cases hp : s.plotRaster = true ∧ in1 = 1 <;>
  simp only [hrun, hget, hp, if_true, if_false, and_self]

/-- A step that returns has written none of the setup fields. -/
theorem execute_sameSetup (s t : State) (in0 in1 : ℚ) (h : execute in0 in1 s = some t) :
    SameSetup s t := by
  by_cases hrun : (s.trial : ℚ) < s.repeat_
  · cases hget : s.wave[s.idx]? with
    | none =>
      have hlen : s.wave.length ≤ s.idx := by
        by_contra hc
        rw [List.getElem?_eq_getElem (not_le.mp hc)] at hget
        exact Option.noConfusion hget
      rw [execute_out_of_range s in0 in1 hrun hlen] at h
      exact Option.noConfusion h
    | some w =>
      rw [execute_active_eq s in0 in1 w hrun hget] at h
      cases h
      exact ⟨rfl, rfl, rfl, rfl, rfl, rfl, rfl, rfl, rfl, rfl, rfl⟩
  · rw [execute_complete_eq s in0 in1 (not_lt.mp hrun)] at h
    cases h
    exact ⟨rfl, rfl, rfl, rfl, rfl, rfl, rfl, rfl, rfl, rfl, rfl⟩

theorem run_append (s : State) (a b : List (ℚ × ℚ)) :
    run s (a ++ b) = (run s a).bind (fun t => run t b) := by
  induction a generalizing s with
  | nil => rfl
  | cons i rest ih =>
    simp only [List.cons_append, run]
    cases execute i.1 i.2 s with
    | none => rfl
    | some t => exact ih t

/-- An active step with the cursor inside the buffer and the boundary test failing. -/
theorem execute_active_stay (s : State) (in0 in1 : ℚ)
    (hrun : (s.trial : ℚ) < s.repeat_) (hlt : s.idx < s.wave.length)
    (hb : (s.count : ℚ) * s.dt ≤ s.totaltime * ((s.trial + 1 : ℕ) : ℚ)) :
    ∃ t, execute in0 in1 s = some t ∧ SameSetup s t ∧ t.idx = s.idx + 1 ∧
      t.count = s.count + 1 ∧ t.trial = s.trial ∧
      t.output = -1 * s.wave[s.idx] * (in0 - s.Erev) * s.gain := by
  have hget : s.wave[s.idx]? = some s.wave[s.idx] := List.getElem?_eq_getElem hlt
  have hstep := execute_active_eq s in0 in1 _ hrun hget
  simp only [not_lt.mpr hb, gt_iff_lt, if_false] at hstep
  exact ⟨_, hstep, ⟨rfl, rfl, rfl, rfl, rfl, rfl, rfl, rfl, rfl, rfl, rfl⟩, rfl, rfl, rfl, rfl⟩

/-- Steps inside one trial: while the run is active, the cursor stays inside the buffer
and the boundary test fails (`count * dt <= totaltime * (trial + 1)` up to the last of
the steps), every step returns, moves cursor and tick count by one and keeps the trial. -/
theorem run_within_trial (ins : List (ℚ × ℚ)) (s : State)
    (hrun : (s.trial : ℚ) < s.repeat_) (hdt : 0 ≤ s.dt)
    (hlen : s.idx + ins.length ≤ s.wave.length)
    (htime : ((s.count + ins.length : ℕ) : ℚ) * s.dt ≤
      s.totaltime * ((s.trial + 1 : ℕ) : ℚ) + s.dt) :
    ∃ t, run s ins = some t ∧ SameSetup s t ∧ t.idx = s.idx + ins.length ∧
      t.count = s.count + ins.length ∧ t.trial = s.trial := by
  induction ins generalizing s with
  | nil => exact ⟨s, rfl, ⟨rfl, rfl, rfl, rfl, rfl, rfl, rfl, rfl, rfl, rfl, rfl⟩, rfl, rfl, rfl⟩
  | cons i rest ih =>
    simp only [List.length_cons] at hlen htime
    have hlt : s.idx < s.wave.length := by omega
    have hb : (s.count : ℚ) * s.dt ≤ s.totaltime * ((s.trial + 1 : ℕ) : ℚ) := by
      push_cast at htime ⊢
      have : 0 ≤ (rest.length : ℚ) * s.dt := mul_nonneg (Nat.cast_nonneg _) hdt
      nlinarith
    obtain ⟨s1, h1, hsame1, hidx1, hcount1, htrial1, -⟩ :=
      execute_active_stay s i.1 i.2 hrun hlt hb
    obtain ⟨hw, hd, hl, htt, hwt, hih, hrp, her, hg, hgf, hpr⟩ := hsame1
    obtain ⟨t, ht, hsame, hidx, hcount, htrial⟩ := ih s1
      (by rw [htrial1, hrp]; exact hrun) (by rw [hd]; exact hdt)
      (by rw [hidx1, hw]; omega)
      (by
        rw [hcount1, hd, htt, htrial1]
        have : s.count + 1 + rest.length = s.count + (rest.length + 1) := by omega
        rw [this]; exact htime)
    obtain ⟨hw2, hd2, hl2, htt2, hwt2, hih2, hrp2, her2, hg2, hgf2, hpr2⟩ := hsame
    refine ⟨t, ?_, ?_, ?_, ?_, ?_⟩
    · simp only [run, h1]; exact ht
    · exact ⟨hw2.trans hw, hd2.trans hd, hl2.trans hl, htt2.trans htt, hwt2.trans hwt,
        hih2.trans hih, hrp2.trans hrp, her2.trans her, hg2.trans hg, hgf2.trans hgf,
        hpr2.trans hpr⟩
    · rw [hidx, hidx1, List.length_cons]; omega
    · rw [hcount, hcount1, List.length_cons]; omega
    · rw [htrial, htrial1]

theorem commitAndStart_eq (h : Host) (s : State) : commitAndStart h s = update h .MODIFY s :=
  rfl

/-- The same in general: after any successful commit with a positive period, a wait that
is not negative and a positive repeat count, as many steps as the padded buffer has entries
all return, the trial is still active, the cursor equals `wave.size()`, and the next
step is the read outside the buffer. -/
theorem commit_step_past_buffer (h : Host) (s : State) (samples : List ℚ)
    (ins : List (ℚ × ℚ)) (v sp : ℚ)
    (hdt : 0 < s.dt) (hwait : 0 ≤ s.gui.waitTime) (hrep : 0 < s.gui.repeat_)
    (hfile : h.file s.gui.fileName = some samples) (hne : s.gui.fileName ≠ noFileLoaded)
    (hlen : ins.length = samples.length + ⌈s.gui.waitTime / s.dt⌉.toNat) :
    ∃ t, run (update h .MODIFY s) ins = some t ∧ (t.trial : ℚ) < t.repeat_ ∧
      t.idx = t.wave.length ∧ execute v sp t = none := by
  obtain ⟨htr, hco, hid, hd, hr, hw, -, htt, -, -, -, -⟩ := commitAndStart_fields h s hne
  rw [commitAndStart_eq] at htr hco hid hd hr hw htt
  rw [hfile] at hw htt
  simp only [Option.getD_some] at hw htt
  have hnn : 0 ≤ ⌈s.gui.waitTime / s.dt⌉ := Int.ceil_nonneg (div_nonneg hwait (le_of_lt hdt))
  have hpad : ((⌈s.gui.waitTime / s.dt⌉.toNat : ℕ) : ℚ) * s.dt < s.gui.waitTime + s.dt := by
    have h1 : ((⌈s.gui.waitTime / s.dt⌉.toNat : ℕ) : ℤ) = ⌈s.gui.waitTime / s.dt⌉ :=
      Int.toNat_of_nonneg hnn
    have h2 : ((⌈s.gui.waitTime / s.dt⌉.toNat : ℕ) : ℚ) = ((⌈s.gui.waitTime / s.dt⌉ : ℤ) : ℚ) := by
      exact_mod_cast congrArg (fun z : ℤ => (z : ℚ)) h1
    have h3 : ((⌈s.gui.waitTime / s.dt⌉ : ℤ) : ℚ) < s.gui.waitTime / s.dt + 1 :=
      Int.ceil_lt_add_one _
    rw [h2]
    have h4 : ((⌈s.gui.waitTime / s.dt⌉ : ℤ) : ℚ) * s.dt < (s.gui.waitTime / s.dt + 1) * s.dt :=
      mul_lt_mul_of_pos_right h3 hdt
    have h5 : (s.gui.waitTime / s.dt + 1) * s.dt = s.gui.waitTime + s.dt := by
      field_simp
    linarith
  obtain ⟨t, hrun, hsame, hidx, -, htrial⟩ :=
    run_within_trial ins (update h .MODIFY s)
      (by rw [htr, hr]; exact_mod_cast hrep)
      (by rw [hd]; exact le_of_lt hdt)
      (by rw [hid, hw, hlen, List.length_append, List.length_replicate]; omega)
      (by
        rw [hco, hd, htt, htr, hlen]
        push_cast
        nlinarith)
  obtain ⟨hw2, -, -, -, -, -, hrp2, -⟩ := hsame
  have hact : (t.trial : ℚ) < t.repeat_ := by
    rw [htrial, hrp2, htr, hr]; exact_mod_cast hrep
  have hend : t.idx = t.wave.length := by
    rw [hidx, hid, hw2, hw, hlen, List.length_append, List.length_replicate]; omega
  exact ⟨t, hrun, hact, hend, execute_out_of_range t v sp hact (le_of_eq hend.symm)⟩

/-- C3, evaluated on the code at the configuration the claim names (samples 0.1, 0.2, 0.3,
dt = 1, wait = 1, repeat = 2, padded length 4): starting from the committed state, four
steps return and leave the trial active (trial 0 < 2) with the cursor at 4, which is past
`wave.size() - 1 = 3`, and the fifth step reads `wave[4]` outside the buffer. -/
theorem commit_fifth_step_out_of_range :
    ∃ t, run (demoCommit 2) (List.replicate 4 (-(65 / 1000), 0)) = some t ∧
      (t.trial : ℚ) < t.repeat_ ∧ t.wave.length = 4 ∧ t.idx = 4 ∧
      ¬ (t.idx ≤ t.wave.length - 1) ∧ execute (-(65 / 1000)) 0 t = none := by
  obtain ⟨hw, hi, ht, hc, hr, hd, htt, -⟩ := demoStart_fields 2
  rw [demoStart_eq] at hw hi ht hc hr hd htt
  obtain ⟨t, hrun, hsame, hidx, -, htrial⟩ :=
    run_within_trial (List.replicate 4 (-(65 / 1000), 0)) (demoCommit 2)
      (by rw [ht, hr]; norm_num) (by rw [hd]; norm_num)
      (by rw [hi, hw]; simp)
      (by rw [hc, hd, htt, ht]; norm_num)
  obtain ⟨hw2, -, -, -, -, -, hrp2, -⟩ := hsame
  have hlen : t.wave.length = 4 := by rw [hw2, hw]; rfl
  have hidx4 : t.idx = 4 := by rw [hidx, hi]; simp
  have hact : (t.trial : ℚ) < t.repeat_ := by rw [htrial, hrp2, ht, hr]; norm_num
  refine ⟨t, hrun, hact, hlen, hidx4, ?_, ?_⟩
  · rw [hidx4, hlen]; decide
  · exact execute_out_of_range t _ _ hact (by rw [hidx4, hlen])

/-- Steps inside one trial, the last of them singled out: it reads the entry under the
cursor it finds and writes the command from it. -/
theorem run_snoc_within_trial (ins : List (ℚ × ℚ)) (v sp : ℚ) (s : State)
    (hrun : (s.trial : ℚ) < s.repeat_) (hdt : 0 ≤ s.dt)
    (hlen : s.idx + ins.length < s.wave.length)
    (htime : ((s.count + ins.length : ℕ) : ℚ) * s.dt ≤
      s.totaltime * ((s.trial + 1 : ℕ) : ℚ)) :
    ∃ m t w, run s ins = some m ∧ execute v sp m = some t ∧
      run s (ins ++ [(v, sp)]) = some t ∧ SameSetup s m ∧
      m.idx = s.idx + ins.length ∧ m.trial = s.trial ∧
      s.wave[s.idx + ins.length]? = some w ∧
      t.output = -1 * w * (v - s.Erev) * s.gain := by
  obtain ⟨m, hm, hsame, hidx, hcount, htrial⟩ :=
    run_within_trial ins s hrun hdt (le_of_lt hlen) (by linarith)
  obtain ⟨hw, hd, hl, htt, hwt, hih, hrp, her, hg, hgf, hpr⟩ := hsame
  have hlt : m.idx < m.wave.length := by rw [hidx, hw]; exact hlen
  obtain ⟨t, ht, -, -, -, -, hout⟩ := execute_active_stay m v sp
    (by rw [htrial, hrp]; exact hrun) hlt
    (by rw [hcount, hd, htt, htrial]; exact htime)
  refine ⟨m, t, m.wave[m.idx], hm, ht, ?_, ⟨hw, hd, hl, htt, hwt, hih, hrp, her, hg, hgf, hpr⟩,
    hidx, htrial, ?_, ?_⟩
  · rw [run_append, hm]
    simp only [Option.bind, run, ht]
  · rw [← hidx, ← hw]
    exact List.getElem?_eq_getElem hlt
  · rw [hout, her, hg]

/-! ## Loading and committing -/

/-- C4 as the claim states it fails: after `wave.txt` has been committed (buffer
0.1, 0.2, 0.3, 0 and trial length 3), committing the name of a file that cannot be opened
does not leave buffer and trial length as they were. -/
theorem commit_unopenable_changes_wave :
    demoHost.file "gone.txt" = none ∧
    ¬ ((update demoHost .MODIFY (enter "gone.txt" (-70) 1 1 0 2 (demoStart 2))).wave =
          (demoStart 2).wave ∧
        (update demoHost .MODIFY (enter "gone.txt" (-70) 1 1 0 2 (demoStart 2))).length =
          (demoStart 2).length) := by
  refine ⟨by decide, ?_⟩
  obtain ⟨hw, -, -, -, -, -, -, -, -, -, hl, -⟩ := demoStart_fields 2
  have hne : (enter "gone.txt" (-70) 1 1 0 2 (demoStart 2)).gui.fileName ≠ noFileLoaded := by
    decide
  rintro ⟨-, h2⟩
  rw [hl] at h2
  simp only [update, updateModify_eq _ _ hne] at h2
  have hnone : demoHost.file (enter "gone.txt" (-70) 1 1 0 2 (demoStart 2)).gui.fileName =
      none := by decide
  rw [hnone] at h2
  norm_num at h2

/-- C4, amended. A period reload whose committed file cannot be opened leaves `trial`,
`count`, `idx` and `totaltime` as they were; a commit whose entered file cannot be opened
sets `trial`, `count`, `idx` to 0 and `totaltime` to the new trial length plus the
committed wait. In both, if the file name is the text "No file loaded." the loader returns
at once and `wave` and `length` are as before; for any other name the buffer is cleared,
holds only the `ceil(wait / dt)` padding entries equal to the holding value, and `length`
becomes 0. Each half asks only for its own file to be unopenable, so the commit of a bad
name after a good load is covered. -/
theorem load_unopenable (h : Host) (s : State) (_hper : 0 < h.period) (_hdt : 0 < s.dt) :
    (h.file s.gFile = none →
      ((update h .PERIOD s).trial, (update h .PERIOD s).count, (update h .PERIOD s).idx,
          (update h .PERIOD s).totaltime) = (s.trial, s.count, s.idx, s.totaltime) ∧
      (s.gFile = noFileLoaded →
        (update h .PERIOD s).wave = s.wave ∧ (update h .PERIOD s).length = s.length) ∧
      (s.gFile ≠ noFileLoaded →
        (update h .PERIOD s).wave =
            List.replicate ⌈s.wait / ((h.period : ℚ) * (1 / 10 ^ 9))⌉.toNat s.Ihold ∧
          (update h .PERIOD s).length = 0)) ∧
    (h.file s.gui.fileName = none →
      ((update h .MODIFY s).trial, (update h .MODIFY s).count, (update h .MODIFY s).idx,
          (update h .MODIFY s).totaltime) =
        (0, 0, 0, (update h .MODIFY s).length + s.gui.waitTime) ∧
      (s.gui.fileName = noFileLoaded →
        (update h .MODIFY s).wave = s.wave ∧ (update h .MODIFY s).length = s.length) ∧
      (s.gui.fileName ≠ noFileLoaded →
        (update h .MODIFY s).wave =
            List.replicate ⌈s.gui.waitTime / s.dt⌉.toNat (s.gui.holdingCurrent * 10 ^ 9) ∧
          (update h .MODIFY s).length = 0)) := by
  refine ⟨fun hfile => ⟨?_, ?_, ?_⟩, fun hgui => ⟨?_, ?_, ?_⟩⟩
  · by_cases hf : s.gFile = noFileLoaded
    · simp only [update, updatePeriod_eq_noFile h s hf]
    · simp only [update, updatePeriod_eq h s hf]
  · intro hf
    simp only [update, updatePeriod_eq_noFile h s hf, and_self]
  · intro hf
    simp only [update, updatePeriod_eq h s hf, hfile]
    simp
  · by_cases hf : s.gui.fileName = noFileLoaded
    · simp only [update, updateModify_eq_noFile h s hf]
    · simp only [update, updateModify_eq h s hf]
  · intro hf
    simp only [update, updateModify_eq_noFile h s hf, and_self]
  · intro hf
    simp only [update, updateModify_eq h s hf, hgui]
    simp

/-- Witness of C4. After the good load of `wave.txt` (buffer 0.1, 0.2, 0.3, 0, length 3,
totaltime 4) the name `gone.txt`, which cannot be opened, is committed: the buffer is the
single padding entry 0, the length 0, the counters 0 and `totaltime` 0 + 1. And after the
same good load a period change on a host where `wave.txt` can no longer be opened: the
buffer is the single padding entry, the length 0, and the counters and `totaltime` = 4
are untouched. -/
theorem load_unopenable_witness :
    0 < demoHost.period ∧ 0 < (enter "gone.txt" (-70) 1 1 0 2 (demoStart 2)).dt ∧
    demoHost.file (enter "gone.txt" (-70) 1 1 0 2 (demoStart 2)).gui.fileName = none ∧
    demoHost.file (enter "gone.txt" (-70) 1 1 0 2 (demoStart 2)).gFile =
      some [1 / 10, 2 / 10, 3 / 10] ∧
    (enter "gone.txt" (-70) 1 1 0 2 (demoStart 2)).wave = [1 / 10, 2 / 10, 3 / 10, 0] ∧
    (update demoHost .MODIFY (enter "gone.txt" (-70) 1 1 0 2 (demoStart 2))).wave = [0] ∧
    (update demoHost .MODIFY (enter "gone.txt" (-70) 1 1 0 2 (demoStart 2))).length = 0 ∧
    ((update demoHost .MODIFY (enter "gone.txt" (-70) 1 1 0 2 (demoStart 2))).trial,
        (update demoHost .MODIFY (enter "gone.txt" (-70) 1 1 0 2 (demoStart 2))).count,
        (update demoHost .MODIFY (enter "gone.txt" (-70) 1 1 0 2 (demoStart 2))).idx,
        (update demoHost .MODIFY (enter "gone.txt" (-70) 1 1 0 2 (demoStart 2))).totaltime) =
      (0, 0, 0, 1) ∧
    0 < emptyHost.period ∧ 0 < (demoStart 2).dt ∧
    emptyHost.file (demoStart 2).gFile = none ∧
    (update emptyHost .PERIOD (demoStart 2)).wave = [0] ∧
    (update emptyHost .PERIOD (demoStart 2)).length = 0 ∧
    ((update emptyHost .PERIOD (demoStart 2)).trial,
        (update emptyHost .PERIOD (demoStart 2)).count,
        (update emptyHost .PERIOD (demoStart 2)).idx,
        (update emptyHost .PERIOD (demoStart 2)).totaltime) = (0, 0, 0, 4) := by
  obtain ⟨hw, hi, ht, hc, -, hd, htt, -, -, hih, -, hwt⟩ := demoStart_fields 2
  have hgf : (demoStart 2).gFile = "wave.txt" := rfl
  have h1 : 0 < demoHost.period := by decide
  have h2 : 0 < (enter "gone.txt" (-70) 1 1 0 2 (demoStart 2)).dt := by
    show 0 < (demoStart 2).dt
    rw [hd]; norm_num
  have h3 : demoHost.file (enter "gone.txt" (-70) 1 1 0 2 (demoStart 2)).gui.fileName =
      none := by decide
  have h4 : demoHost.file (enter "gone.txt" (-70) 1 1 0 2 (demoStart 2)).gFile =
      some [1 / 10, 2 / 10, 3 / 10] := by
    show demoHost.file (demoStart 2).gFile = _
    rw [hgf]; simp [demoHost]
  have hne : (enter "gone.txt" (-70) 1 1 0 2 (demoStart 2)).gui.fileName ≠ noFileLoaded := by
    decide
  obtain ⟨hcnt, -, hload⟩ :=
    (load_unopenable demoHost (enter "gone.txt" (-70) 1 1 0 2 (demoStart 2)) h1 h2).2 h3
  obtain ⟨hwave, hlen⟩ := hload hne
  have hpad : List.replicate
      ⌈(enter "gone.txt" (-70) 1 1 0 2 (demoStart 2)).gui.waitTime /
        (enter "gone.txt" (-70) 1 1 0 2 (demoStart 2)).dt⌉.toNat
      ((enter "gone.txt" (-70) 1 1 0 2 (demoStart 2)).gui.holdingCurrent * 10 ^ 9) = [0] := by
    show List.replicate ⌈(1 : ℚ) / (demoStart 2).dt⌉.toNat ((0 : ℚ) * 10 ^ 9) = [0]
    rw [hd]; norm_num
  rw [hpad] at hwave
  rw [hlen] at hcnt
  have hcnt2 : ((update demoHost .MODIFY (enter "gone.txt" (-70) 1 1 0 2 (demoStart 2))).trial,
        (update demoHost .MODIFY (enter "gone.txt" (-70) 1 1 0 2 (demoStart 2))).count,
        (update demoHost .MODIFY (enter "gone.txt" (-70) 1 1 0 2 (demoStart 2))).idx,
        (update demoHost .MODIFY (enter "gone.txt" (-70) 1 1 0 2 (demoStart 2))).totaltime) =
      (0, 0, 0, 1) := by
    rw [hcnt]
    show ((0 : ℕ), (0 : ℕ), (0 : ℕ), (0 : ℚ) + 1) = (0, 0, 0, 1)
    norm_num
  have h5 : 0 < emptyHost.period := by decide
  have h6 : 0 < (demoStart 2).dt := by rw [hd]; norm_num
  have h7 : emptyHost.file (demoStart 2).gFile = none := rfl
  obtain ⟨pcnt, -, pload⟩ := (load_unopenable emptyHost (demoStart 2) h5 h6).1 h7
  obtain ⟨pwave, plen⟩ := pload (by rw [hgf]; decide)
  have ppad : List.replicate
      ⌈(demoStart 2).wait / ((emptyHost.period : ℚ) * (1 / 10 ^ 9))⌉.toNat
      (demoStart 2).Ihold = [0] := by
    rw [hwt, hih, show emptyHost.period = 10 ^ 9 from rfl]; norm_num
  rw [ppad] at pwave
  rw [ht, hc, hi, htt] at pcnt
  exact ⟨h1, h2, h3, h4, hw, hwave, hlen, hcnt2, h5, h6, h7, pwave, plen, pcnt⟩

/-- C5 as the claim states it fails: after the commit of a file that cannot be opened,
with a holding current entered (stored value 1), the first step after unpause returns
with a command that is not 0. -/
theorem failed_commit_step_nonzero :
    demoHost.file "gone.txt" = none ∧
    ∃ t, execute 0 0 (update demoHost .UNPAUSE demoGoneHold) = some t ∧ t.output ≠ 0 := by
  refine ⟨by decide, ?_⟩
  obtain ⟨hd, hw, -, htt, -, -, hr, her, hg, -, ht, hc, hi, -⟩ :=
    commitOf_fields demoHost "gone.txt" (-70) 1 1 (1 / 10 ^ 9) 1 (by decide)
  have hnone : demoHost.file "gone.txt" = none := by decide
  rw [hnone] at hw htt
  have hw1 : (update demoHost .UNPAUSE demoGoneHold).wave = [1] := by
    show demoGoneHold.wave = [1]
    rw [show demoGoneHold.wave = _ from hw]
    norm_num [demoHost]
  have hlt : (update demoHost .UNPAUSE demoGoneHold).idx <
      (update demoHost .UNPAUSE demoGoneHold).wave.length := by
    rw [hw1]; show 0 < 1; decide
  obtain ⟨t, hstep, -, -, -, -, hout⟩ :=
    execute_active_stay (update demoHost .UNPAUSE demoGoneHold) 0 0
      (by
        show ((0 : ℕ) : ℚ) < demoGoneHold.repeat_
        rw [show demoGoneHold.repeat_ = _ from hr]; norm_num)
      hlt
      (by
        show ((0 : ℕ) : ℚ) * demoGoneHold.dt ≤
          (demoGoneHold.length + demoGoneHold.wait) * ((0 + 1 : ℕ) : ℚ)
        obtain ⟨-, -, hl, -, hwt, -⟩ :=
          commitOf_fields demoHost "gone.txt" (-70) 1 1 (1 / 10 ^ 9) 1 (by decide)
        rw [show demoGoneHold.length = _ from hl, show demoGoneHold.wait = _ from hwt, hnone]
        norm_num)
  refine ⟨t, hstep, ?_⟩
  rw [hout]
  have he : (update demoHost .UNPAUSE demoGoneHold).Erev = -70 / 1000 := her
  have hg1 : (update demoHost .UNPAUSE demoGoneHold).gain = 1 := hg
  have hel : (update demoHost .UNPAUSE demoGoneHold).wave[
      (update demoHost .UNPAUSE demoGoneHold).idx] = 1 := by
    simp only [hw1]
    rfl
  rw [he, hg1, hel]
  norm_num

/-- C5, amended. After a commit whose file cannot be opened (the name is not the text
"No file loaded."), with a positive period, at least one trial asked for and a holding
current of 0, followed by unpause: the buffer holds exactly the `ceil(wait / dt)` padding
entries, and each of the first `ceil(wait / dt)` steps returns after an in-range read and
leaves the command at 0, for every input voltage. -/
theorem failed_commit_steps (h : Host) (s : State) (ins : List (ℚ × ℚ)) (v sp : ℚ)
    (hdt : 0 < s.dt) (hrep : 0 < s.gui.repeat_)
    (hgui : h.file s.gui.fileName = none) (hne : s.gui.fileName ≠ noFileLoaded)
    (hhold : s.gui.holdingCurrent = 0)
    (hlen : ins.length < ⌈s.gui.waitTime / s.dt⌉.toNat) :
    (commitAndStart h s).wave = List.replicate ⌈s.gui.waitTime / s.dt⌉.toNat 0 ∧
    ∃ t, run (commitAndStart h s) (ins ++ [(v, sp)]) = some t ∧ t.output = 0 := by
  obtain ⟨htr, hco, hid, hd, hr, hw, -, htt, -, -, -, -⟩ := commitAndStart_fields h s hne
  rw [hgui, hhold] at hw
  rw [hgui] at htt
  simp only [Option.getD_none, List.nil_append, List.length_nil, Nat.cast_zero, zero_mul,
    zero_add] at hw htt
  have hlt : (ins.length : ℚ) * s.dt < s.gui.waitTime := by
    have h1 : (ins.length : ℤ) < ⌈s.gui.waitTime / s.dt⌉ := by omega
    have h2 : ((ins.length : ℤ) : ℚ) < s.gui.waitTime / s.dt := Int.lt_ceil.mp h1
    have h3 : (ins.length : ℚ) < s.gui.waitTime / s.dt := by exact_mod_cast h2
    exact (lt_div_iff₀ hdt).mp h3
  obtain ⟨m, t, w, -, -, hrun, -, -, -, hget, hout⟩ :=
    run_snoc_within_trial ins v sp (commitAndStart h s)
      (by rw [htr, hr]; exact_mod_cast hrep)
      (by rw [hd]; exact le_of_lt hdt)
      (by rw [hid, hw, zero_add, List.length_replicate]; exact hlen)
      (by rw [hco, hd, htt, htr]; simpa using le_of_lt hlt)
  have hw2 : w = 0 := by
    rw [hid, zero_add] at hget
    simp only [hw] at hget
    rw [List.getElem?_replicate] at hget
    split_ifs at hget
    · exact (Option.some.inj hget).symm
  refine ⟨hw, t, hrun, ?_⟩
  rw [hout, hw2]
  ring

/-- Witness of C5: `gone.txt` cannot be opened; one trial, wait 1 s at a period of 1 s,
holding current 0, first step after unpause at 1 V. -/
theorem failed_commit_steps_witness :
    0 < (enter "gone.txt" (-70) 1 1 0 1 (construct demoHost)).dt ∧
    0 < (enter "gone.txt" (-70) 1 1 0 1 (construct demoHost)).gui.repeat_ ∧
    demoHost.file (enter "gone.txt" (-70) 1 1 0 1 (construct demoHost)).gui.fileName = none ∧
    (enter "gone.txt" (-70) 1 1 0 1 (construct demoHost)).gui.fileName ≠ noFileLoaded ∧
    (enter "gone.txt" (-70) 1 1 0 1 (construct demoHost)).gui.holdingCurrent = 0 ∧
    ([] : List (ℚ × ℚ)).length <
      ⌈(enter "gone.txt" (-70) 1 1 0 1 (construct demoHost)).gui.waitTime /
        (enter "gone.txt" (-70) 1 1 0 1 (construct demoHost)).dt⌉.toNat ∧
    ((commitAndStart demoHost (enter "gone.txt" (-70) 1 1 0 1 (construct demoHost))).wave =
      List.replicate
        ⌈(enter "gone.txt" (-70) 1 1 0 1 (construct demoHost)).gui.waitTime /
          (enter "gone.txt" (-70) 1 1 0 1 (construct demoHost)).dt⌉.toNat 0 ∧
    ∃ t, run (commitAndStart demoHost (enter "gone.txt" (-70) 1 1 0 1 (construct demoHost)))
        ([] ++ [(1, 0)]) = some t ∧ t.output = 0) :=
  have hdt : (enter "gone.txt" (-70) 1 1 0 1 (construct demoHost)).dt = 1 := by
    show (construct demoHost).dt = 1
    rw [(construct_fields demoHost).1]; norm_num [demoHost]
  have h1 : 0 < (enter "gone.txt" (-70) 1 1 0 1 (construct demoHost)).dt := by
    rw [hdt]; norm_num
  have h2 : 0 < (enter "gone.txt" (-70) 1 1 0 1 (construct demoHost)).gui.repeat_ := by
    show (0 : ℚ) < 1
    norm_num
  have h3 : demoHost.file
      (enter "gone.txt" (-70) 1 1 0 1 (construct demoHost)).gui.fileName = none := by
    decide
  have h4 : (enter "gone.txt" (-70) 1 1 0 1 (construct demoHost)).gui.fileName ≠
      noFileLoaded := by decide
  have h5 : (enter "gone.txt" (-70) 1 1 0 1 (construct demoHost)).gui.holdingCurrent = 0 := rfl
  have h6 : ([] : List (ℚ × ℚ)).length <
      ⌈(enter "gone.txt" (-70) 1 1 0 1 (construct demoHost)).gui.waitTime /
        (enter "gone.txt" (-70) 1 1 0 1 (construct demoHost)).dt⌉.toNat := by
    rw [hdt]
    show 0 < ⌈(1 : ℚ) / 1⌉.toNat
    norm_num
  ⟨h1, h2, h3, h4, h5, h6, failed_commit_steps demoHost _ [] 1 0 h1 h2 h3 h4 h5 h6⟩

/-- The whole effect of the interactive load of a chosen file. -/
theorem loadFileDialog_some (h : Host) (f : String) (s : State) :
    loadFileDialog h (some f) s =
      { s with
        wave := (h.file f).getD [] ++ List.replicate ⌈s.wait / s.dt⌉.toNat s.Ihold
        length := (((h.file f).getD []).length : ℚ) * s.dt
        gui := { s.gui with
          fileName := f
          lengthState := (((h.file f).getD []).length : ℚ) * s.dt }
        plotRanges := s.plotRanges ++ [(0, (((h.file f).getD []).length : ℚ) * s.dt, 0,
          if 10 < s.repeat_ then s.repeat_ + 1 else 11)] } := by
  simp only [loadFileDialog, loadBody_eq]

/-- C6: for a file of `L` samples and a positive period `dt`, a load sets `length` to
`L * dt` and publishes the same value as the `Length (s)` state, in the programmatic
loader (which serves every name except the text "No file loaded.", where it returns at
once) and in the interactive one; `L` counts the file samples only, the buffer itself
ends up `ceil(wait / dt)` entries longer. -/
theorem load_sets_length (h : Host) (s : State) (f : String) (samples : List ℚ)
    (_hdt : 0 < s.dt) (hfile : h.file f = some samples) :
    (f ≠ noFileLoaded →
      (loadFile h f s).length = (samples.length : ℚ) * s.dt ∧
      (loadFile h f s).gui.lengthState = (samples.length : ℚ) * s.dt ∧
      (loadFile h f s).wave.length = samples.length + ⌈s.wait / s.dt⌉.toNat) ∧
    (loadFileDialog h (some f) s).length = (samples.length : ℚ) * s.dt ∧
    (loadFileDialog h (some f) s).gui.lengthState = (samples.length : ℚ) * s.dt ∧
    (loadFileDialog h (some f) s).wave.length = samples.length + ⌈s.wait / s.dt⌉.toNat := by
  refine ⟨fun hne => ?_, ?_⟩
  · rw [loadFile_of_ne h f s hne, loadBody_eq, hfile]
    exact ⟨rfl, rfl, by simp⟩
  · rw [loadFileDialog_some, hfile]
    exact ⟨rfl, rfl, by simp⟩

/-- Witness of C6: `wave.txt` (3 samples) at a period of a tenth of a second. -/
theorem load_sets_length_witness :
    0 < (construct fastHost).dt ∧ fastHost.file "wave.txt" = some [1 / 10, 2 / 10, 3 / 10] ∧
    (("wave.txt" ≠ noFileLoaded →
      (loadFile fastHost "wave.txt" (construct fastHost)).length =
          (([1 / 10, 2 / 10, 3 / 10] : List ℚ).length : ℚ) * (construct fastHost).dt ∧
      (loadFile fastHost "wave.txt" (construct fastHost)).gui.lengthState =
          (([1 / 10, 2 / 10, 3 / 10] : List ℚ).length : ℚ) * (construct fastHost).dt ∧
      (loadFile fastHost "wave.txt" (construct fastHost)).wave.length =
          ([1 / 10, 2 / 10, 3 / 10] : List ℚ).length +
            ⌈(construct fastHost).wait / (construct fastHost).dt⌉.toNat) ∧
    (loadFileDialog fastHost (some "wave.txt") (construct fastHost)).length =
        (([1 / 10, 2 / 10, 3 / 10] : List ℚ).length : ℚ) * (construct fastHost).dt ∧
    (loadFileDialog fastHost (some "wave.txt") (construct fastHost)).gui.lengthState =
        (([1 / 10, 2 / 10, 3 / 10] : List ℚ).length : ℚ) * (construct fastHost).dt ∧
    (loadFileDialog fastHost (some "wave.txt") (construct fastHost)).wave.length =
        ([1 / 10, 2 / 10, 3 / 10] : List ℚ).length +
          ⌈(construct fastHost).wait / (construct fastHost).dt⌉.toNat) :=
  have h1 : 0 < (construct fastHost).dt := by
    norm_num [construct, update, updateInit, initParameters, togglePlot, bookkeep, blank,
      fastHost]
  have h2 : fastHost.file "wave.txt" = some [1 / 10, 2 / 10, 3 / 10] := by simp [fastHost]
  ⟨h1, h2, load_sets_length fastHost (construct fastHost) "wave.txt" _ h1 h2⟩

/-- C7 as the claim states it fails: with wait 1 s and a period of 2 s the quotient is
1/2, whose floor is 0, and the load of the three samples appends a padding entry all the
same, so what it appends is not `floor(wait / dt)` entries. -/
theorem padding_not_floor :
    (construct slowHost).wait = 1 ∧ (construct slowHost).dt = 2 ∧
    (loadFile slowHost "wave.txt" (construct slowHost)).wave = [1 / 10, 2 / 10, 3 / 10, 0] ∧
    ¬ ∃ pad : List ℚ,
      (loadFile slowHost "wave.txt" (construct slowHost)).wave =
          [1 / 10, 2 / 10, 3 / 10] ++ pad ∧
        (pad.length : ℤ) = ⌊(construct slowHost).wait / (construct slowHost).dt⌋ := by
  obtain ⟨hd, hw, hi, -⟩ := construct_fields slowHost
  have hd2 : (construct slowHost).dt = 2 := by rw [hd]; norm_num [slowHost]
  have hc : ⌈(1 : ℚ) / 2⌉ = 1 := by rw [Int.ceil_eq_iff]; norm_num
  have hfl : ⌊(1 : ℚ) / 2⌋ = 0 := by rw [Int.floor_eq_iff]; norm_num
  have hwave : (loadFile slowHost "wave.txt" (construct slowHost)).wave =
      [1 / 10, 2 / 10, 3 / 10, 0] := by
    rw [loadFile_of_ne _ _ _ (by decide), loadBody_eq]
    show (slowHost.file "wave.txt").getD [] ++ List.replicate
      ⌈(construct slowHost).wait / (construct slowHost).dt⌉.toNat (construct slowHost).Ihold = _
    rw [hw, hd2, hi, hc]
    simp [slowHost]
  refine ⟨hw, hd2, hwave, ?_⟩
  rintro ⟨pad, hp, hlen⟩
  rw [hwave] at hp
  rw [hw, hd2, hfl] at hlen
  have hnil : pad = [] := List.length_eq_zero.mp (by exact_mod_cast hlen)
  rw [hnil] at hp
  simp at hp

/-- C7, amended. For wait >= 0 and dt > 0 a load appends exactly `ceil(q)` padding
entries to the file samples, where `q` is the quotient `wait / dt` that the loop condition
`i < wait / dt` computes (a quotient with a fractional part is rounded up), each equal to
the holding value; when that quotient is a whole number `k`, that is exactly `k`
entries. -/
theorem load_padding_count (h : Host) (s : State) (f : String) (samples : List ℚ)
    (hdt : 0 < s.dt) (hwait : 0 ≤ s.wait) (hfile : h.file f = some samples)
    (hne : f ≠ noFileLoaded) :
    ∃ pad : List ℚ, (loadFile h f s).wave = samples ++ pad ∧
      (pad.length : ℤ) = ⌈s.wait / s.dt⌉ ∧ (∀ x ∈ pad, x = s.Ihold) ∧
      ∀ k : ℕ, s.wait / s.dt = (k : ℚ) → pad.length = k := by
  have hnn : 0 ≤ ⌈s.wait / s.dt⌉ := Int.ceil_nonneg (div_nonneg hwait (le_of_lt hdt))
  refine ⟨List.replicate ⌈s.wait / s.dt⌉.toNat s.Ihold, ?_, ?_, ?_, ?_⟩
  · rw [loadFile_of_ne h f s hne, loadBody_eq, hfile]
    rfl
  · rw [List.length_replicate]
    exact Int.toNat_of_nonneg hnn
  · intro x hx
    exact List.eq_of_mem_replicate hx
  · intro k hk
    rw [List.length_replicate, hk]
    simp

/-- Witness of C7: wait 1 s at a period of 0.1 s, where the quotient is the whole number
10, gives exactly 10 padding entries, each equal to the holding value 0. -/
theorem load_padding_count_witness :
    0 < (construct fastHost).dt ∧ 0 ≤ (construct fastHost).wait ∧
    fastHost.file "wave.txt" = some [1 / 10, 2 / 10, 3 / 10] ∧ "wave.txt" ≠ noFileLoaded ∧
    (construct fastHost).wait = 1 ∧ (construct fastHost).dt = 1 / 10 ∧
    (construct fastHost).wait / (construct fastHost).dt = ((10 : ℕ) : ℚ) ∧
    ∃ pad : List ℚ,
      (loadFile fastHost "wave.txt" (construct fastHost)).wave =
        [1 / 10, 2 / 10, 3 / 10] ++ pad ∧
      pad.length = 10 ∧ ∀ x ∈ pad, x = (construct fastHost).Ihold := by
  have hd : (construct fastHost).dt = 1 / 10 := by
    rw [(construct_fields fastHost).1]; norm_num [fastHost]
  have hw : (construct fastHost).wait = 1 := (construct_fields fastHost).2.1
  have h1 : 0 < (construct fastHost).dt := by rw [hd]; norm_num
  have h2 : 0 ≤ (construct fastHost).wait := by rw [hw]; norm_num
  have h3 : fastHost.file "wave.txt" = some [1 / 10, 2 / 10, 3 / 10] := by simp [fastHost]
  have h4 : "wave.txt" ≠ noFileLoaded := by decide
  obtain ⟨pad, hwave, -, hall, hk⟩ :=
    load_padding_count fastHost (construct fastHost) "wave.txt" _ h1 h2 h3 h4
  have hq : (construct fastHost).wait / (construct fastHost).dt = ((10 : ℕ) : ℚ) := by
    rw [hw, hd]; norm_num
  exact ⟨h1, h2, h3, h4, hw, hd, hq, pad, hwave, hk 10 hq, hall⟩

/-- C8: for a file with samples `samples`, wait >= 0 and dt > 0, the buffer after a load
is the file samples in file order followed by `ceil(wait / dt)` entries equal to the
holding value `Ihold`, in the programmatic loader (for every name but the text
"No file loaded.") and in the interactive one; nothing of the previous buffer survives,
the result is the same whatever the buffer held before. -/
theorem load_wave_contents (h : Host) (s : State) (f : String) (samples : List ℚ)
    (hdt : 0 < s.dt) (hwait : 0 ≤ s.wait) (hfile : h.file f = some samples) :
    ((⌈s.wait / s.dt⌉.toNat : ℕ) : ℤ) = ⌈s.wait / s.dt⌉ ∧
    (loadFileDialog h (some f) s).wave =
      samples ++ List.replicate ⌈s.wait / s.dt⌉.toNat s.Ihold ∧
    (f ≠ noFileLoaded →
      (loadFile h f s).wave = samples ++ List.replicate ⌈s.wait / s.dt⌉.toNat s.Ihold ∧
      ∀ old : List ℚ, (loadFile h f { s with wave := old }).wave = (loadFile h f s).wave) := by
  have hnn : 0 ≤ ⌈s.wait / s.dt⌉ := Int.ceil_nonneg (div_nonneg hwait (le_of_lt hdt))
  refine ⟨Int.toNat_of_nonneg hnn, ?_, fun hne => ⟨?_, fun old => ?_⟩⟩
  · rw [loadFileDialog_some, hfile]
    rfl
  · rw [loadFile_of_ne h f s hne, loadBody_eq, hfile]
    rfl
  · rw [loadFile_of_ne h f s hne, loadFile_of_ne h f _ hne, loadBody_eq, loadBody_eq]

/-- Witness of C8: samples 0.1, 0.2, 0.3 with dt = 1, wait = 1 and holding value 0, loaded
over a buffer that already holds four entries, give 0.1, 0.2, 0.3, 0. -/
theorem load_wave_contents_witness :
    0 < (demoStart 2).dt ∧ 0 ≤ (demoStart 2).wait ∧
    demoHost.file "wave.txt" = some [1 / 10, 2 / 10, 3 / 10] ∧
    (demoStart 2).wave.length = 4 ∧
    (loadFile demoHost "wave.txt" (demoStart 2)).wave = [1 / 10, 2 / 10, 3 / 10, 0] ∧
    (loadFileDialog demoHost (some "wave.txt") (demoStart 2)).wave =
      [1 / 10, 2 / 10, 3 / 10, 0] := by
  obtain ⟨hw, -, -, -, -, hd, -, -, -, hi, -, hwt⟩ := demoStart_fields 2
  have h1 : 0 < (demoStart 2).dt := by rw [hd]; norm_num
  have h2 : 0 ≤ (demoStart 2).wait := by rw [hwt]; norm_num
  have h3 : demoHost.file "wave.txt" = some [1 / 10, 2 / 10, 3 / 10] := by simp [demoHost]
  obtain ⟨-, hdlg, hprog⟩ := load_wave_contents demoHost (demoStart 2) "wave.txt" _ h1 h2 h3
  have hpad : List.replicate ⌈(demoStart 2).wait / (demoStart 2).dt⌉.toNat (demoStart 2).Ihold =
      [0] := by
    rw [hwt, hd, hi]; norm_num
  rw [hpad] at hdlg hprog
  exact ⟨h1, h2, h3, by rw [hw]; rfl, (hprog (by decide)).1, hdlg⟩

/-- C9, evaluated on the code: `wave.txt` (3 samples) committed with dt = 1, wait = 1, two
trials, reversal potential -70 mV, gain 1 and a stored holding value of 2. After three
steps the trial is active and the cursor is 3, inside the padded wait interval
(3 <= idx < 4); the step taken there at 0 V writes `-1 * 2 * (0 + 0.07) * 1 = -7/50`
to the command, not the holding value 2. -/
theorem wait_interval_command_not_hold :
    ∃ m t, run demoHold (List.replicate 3 (0, 0)) = some m ∧
      (m.trial : ℚ) < m.repeat_ ∧ 3 ≤ m.idx ∧ m.idx < m.wave.length ∧ m.Ihold = 2 ∧
      execute 0 0 m = some t ∧ t.output = -(7 / 50) ∧ t.output ≠ m.Ihold := by
  obtain ⟨hd, hw, -, htt, -, hih, hr, her, hg, -, ht, hc, hi, -⟩ :=
    commitOf_fields demoHost "wave.txt" (-70) 1 1 (2 / 10 ^ 9) 2 (by decide)
  have hd1 : demoHold.dt = 1 := by rw [show demoHold.dt = _ from hd]; norm_num [demoHost]
  have hw1 : demoHold.wave = [1 / 10, 2 / 10, 3 / 10, 2] := by
    rw [show demoHold.wave = _ from hw]; norm_num [demoHost]
  have htt1 : demoHold.totaltime = 4 := by
    rw [show demoHold.totaltime = _ from htt]; norm_num [demoHost]
  have ht0 : demoHold.trial = 0 := ht
  have hc0 : demoHold.count = 0 := hc
  have hi0 : demoHold.idx = 0 := hi
  have hr2 : demoHold.repeat_ = 2 := hr
  have hih2 : demoHold.Ihold = 2 := by rw [show demoHold.Ihold = _ from hih]; norm_num
  have her1 : demoHold.Erev = -70 / 1000 := her
  have hg1 : demoHold.gain = 1 := hg
  obtain ⟨m, t, w, hm, hstep, -, hsame, hidx, htrial, hget, hout⟩ :=
    run_snoc_within_trial (List.replicate 3 (0, 0)) 0 0 demoHold
      (by rw [ht0, hr2]; norm_num) (by rw [hd1]; norm_num)
      (by rw [hi0, hw1]; simp)
      (by rw [hc0, hd1, htt1, ht0]; norm_num)
  obtain ⟨hw2, -, -, -, -, hih3, hrp2, -⟩ := hsame
  have hw3 : w = 2 := by
    rw [hi0, hw1] at hget
    simpa using hget.symm
  have hout2 : t.output = -(7 / 50) := by
    rw [hout, hw3, her1, hg1]; norm_num
  refine ⟨m, t, hm, ?_, ?_, ?_, ?_, hstep, hout2, ?_⟩
  · rw [htrial, hrp2, ht0, hr2]; norm_num
  · rw [hidx, hi0]; simp
  · rw [hidx, hi0, hw2, hw1]; simp
  · rw [hih3, hih2]
  · rw [hout2, hih3, hih2]; norm_num

/-- C10: a commit stores the reversal potential as the entered value divided by 1000, the
holding current as the entered value times 10^9, and gain, wait time, repeat count and
file name exactly as entered. -/
theorem modify_stores_parameters (h : Host) (s : State) (f : String) (e g w i r : ℚ)
    (_hdt : 0 < s.dt) :
    (update h .MODIFY (enter f e g w i r s)).Erev = e / 1000 ∧
    (update h .MODIFY (enter f e g w i r s)).Ihold = i * 10 ^ 9 ∧
    (update h .MODIFY (enter f e g w i r s)).gain = g ∧
    (update h .MODIFY (enter f e g w i r s)).wait = w ∧
    (update h .MODIFY (enter f e g w i r s)).repeat_ = r ∧
    (update h .MODIFY (enter f e g w i r s)).gFile = f := by
  by_cases hf : (enter f e g w i r s).gui.fileName = noFileLoaded
  · simp only [update, updateModify_eq_noFile h _ hf]
    exact ⟨rfl, rfl, rfl, rfl, rfl, rfl⟩
  · simp only [update, updateModify_eq h _ hf]
    exact ⟨rfl, rfl, rfl, rfl, rfl, rfl⟩

/-- Witness of C10: -70 mV, gain 1, wait 1 s, holding current `2e-9`, two trials and
`wave.txt`, committed on the freshly constructed module. -/
theorem modify_stores_parameters_witness :
    0 < (construct demoHost).dt ∧
    ((update demoHost .MODIFY
        (enter "wave.txt" (-70) 1 1 (2 / 10 ^ 9) 2 (construct demoHost))).Erev = -70 / 1000 ∧
    (update demoHost .MODIFY
        (enter "wave.txt" (-70) 1 1 (2 / 10 ^ 9) 2 (construct demoHost))).Ihold =
      2 / 10 ^ 9 * 10 ^ 9 ∧
    (update demoHost .MODIFY
        (enter "wave.txt" (-70) 1 1 (2 / 10 ^ 9) 2 (construct demoHost))).gain = 1 ∧
    (update demoHost .MODIFY
        (enter "wave.txt" (-70) 1 1 (2 / 10 ^ 9) 2 (construct demoHost))).wait = 1 ∧
    (update demoHost .MODIFY
        (enter "wave.txt" (-70) 1 1 (2 / 10 ^ 9) 2 (construct demoHost))).repeat_ = 2 ∧
    (update demoHost .MODIFY
        (enter "wave.txt" (-70) 1 1 (2 / 10 ^ 9) 2 (construct demoHost))).gFile = "wave.txt") :=
  have h1 : 0 < (construct demoHost).dt := by
    rw [(construct_fields demoHost).1]; norm_num [demoHost]
  ⟨h1, modify_stores_parameters demoHost (construct demoHost) "wave.txt" (-70) 1 1
    (2 / 10 ^ 9) 2 h1⟩

/-! ## Reset, period change and the panel conversions -/

/-- C11: `bookkeep` sets the tick count, the cursor and the trial index to 0 and sets
`totaltime` to `length + wait` from the values it finds; a commit (`MODIFY`, which resets
after the reload) and an unpause (`UNPAUSE`) both end in such a state, and after a commit
that opens a file of `L` samples `totaltime` is `L * dt + wait` for the wait just
committed. -/
theorem bookkeep_resets (h : Host) (s : State) (samples : List ℚ) (_hdt : 0 < s.dt) :
    ((bookkeep s).count = 0 ∧ (bookkeep s).idx = 0 ∧ (bookkeep s).trial = 0 ∧
      (bookkeep s).totaltime = s.length + s.wait) ∧
    ((update h .UNPAUSE s).count = 0 ∧ (update h .UNPAUSE s).idx = 0 ∧
      (update h .UNPAUSE s).trial = 0 ∧
      (update h .UNPAUSE s).totaltime =
        (update h .UNPAUSE s).length + (update h .UNPAUSE s).wait) ∧
    ((update h .MODIFY s).count = 0 ∧ (update h .MODIFY s).idx = 0 ∧
      (update h .MODIFY s).trial = 0 ∧
      (update h .MODIFY s).totaltime =
        (update h .MODIFY s).length + (update h .MODIFY s).wait) ∧
    (h.file s.gui.fileName = some samples → s.gui.fileName ≠ noFileLoaded →
      (update h .MODIFY s).wait = s.gui.waitTime ∧
      (update h .MODIFY s).totaltime = (samples.length : ℚ) * s.dt + s.gui.waitTime) := by
  refine ⟨⟨rfl, rfl, rfl, rfl⟩, ⟨rfl, rfl, rfl, rfl⟩, ⟨rfl, rfl, rfl, rfl⟩, ?_⟩
  intro hfile hne
  simp only [update, updateModify_eq h s hne, hfile, Option.getD_some, and_self]

/-- Witness of C11: the commit of `wave.txt` (3 samples, dt = 1, wait = 1) in the middle of
a run gives `totaltime = 3 * 1 + 1`. -/
theorem bookkeep_resets_witness :
    0 < (enter "wave.txt" (-70) 1 1 0 2 (demoStart 2)).dt ∧
    (update demoHost .MODIFY (enter "wave.txt" (-70) 1 1 0 2 (demoStart 2))).totaltime =
      (([1 / 10, 2 / 10, 3 / 10] : List ℚ).length : ℚ) *
        (enter "wave.txt" (-70) 1 1 0 2 (demoStart 2)).dt +
      (enter "wave.txt" (-70) 1 1 0 2 (demoStart 2)).gui.waitTime ∧
    (update demoHost .MODIFY (enter "wave.txt" (-70) 1 1 0 2 (demoStart 2))).count = 0 := by
  have h1 : 0 < (enter "wave.txt" (-70) 1 1 0 2 (demoStart 2)).dt := by
    show 0 < (demoStart 2).dt
    rw [(demoStart_fields 2).2.2.2.2.2.1]; norm_num
  obtain ⟨-, -, ⟨hc, -⟩, hok⟩ :=
    bookkeep_resets demoHost (enter "wave.txt" (-70) 1 1 0 2 (demoStart 2))
      [1 / 10, 2 / 10, 3 / 10] h1
  exact ⟨h1, (hok (by simp [enter, demoHost]) (by decide)).2, hc⟩

/-- C12: a period change sets `dt` to the new period and reloads from the committed file
path, which is all it does: `wave`, `length` (with the published length and the plot
range) are those of that reload, and the parameters `Erev`, `gain`, `wait`, `Ihold`,
`repeat`, the file path, the counters `trial`, `count`, `idx`, `totaltime` and every
other member are as before. -/
theorem period_change_frame (h : Host) (s : State) (_hper : 0 < h.period) :
    (update h .PERIOD s).dt = (h.period : ℚ) * (1 / 10 ^ 9) ∧
    (update h .PERIOD s).wave =
      (loadFile h s.gFile { s with dt := (h.period : ℚ) * (1 / 10 ^ 9) }).wave ∧
    (update h .PERIOD s).length =
      (loadFile h s.gFile { s with dt := (h.period : ℚ) * (1 / 10 ^ 9) }).length ∧
    ((update h .PERIOD s).Erev = s.Erev ∧ (update h .PERIOD s).gain = s.gain ∧
      (update h .PERIOD s).wait = s.wait ∧ (update h .PERIOD s).Ihold = s.Ihold ∧
      (update h .PERIOD s).repeat_ = s.repeat_ ∧ (update h .PERIOD s).gFile = s.gFile) ∧
    ((update h .PERIOD s).trial = s.trial ∧ (update h .PERIOD s).count = s.count ∧
      (update h .PERIOD s).idx = s.idx ∧ (update h .PERIOD s).totaltime = s.totaltime) ∧
    ((update h .PERIOD s).systime = s.systime ∧ (update h .PERIOD s).Vm = s.Vm ∧
      (update h .PERIOD s).output = s.output ∧ (update h .PERIOD s).active = s.active ∧
      (update h .PERIOD s).plotRaster = s.plotRaster ∧
      (update h .PERIOD s).spktime = s.spktime ∧
      (update h .PERIOD s).spikestate = s.spikestate ∧
      (update h .PERIOD s).dataPoints = s.dataPoints ∧
      (update h .PERIOD s).gui.fileName = s.gui.fileName ∧
      (update h .PERIOD s).gui.reversalPotential = s.gui.reversalPotential ∧
      (update h .PERIOD s).gui.gain = s.gui.gain ∧
      (update h .PERIOD s).gui.waitTime = s.gui.waitTime ∧
      (update h .PERIOD s).gui.holdingCurrent = s.gui.holdingCurrent ∧
      (update h .PERIOD s).gui.repeat_ = s.gui.repeat_) := by
  by_cases hf : s.gFile = noFileLoaded
  · simp only [update, updatePeriod_eq_noFile h s hf, hf, loadFile_noFile, and_self]
  · simp only [update, updatePeriod_eq h s hf, loadFile_of_ne h s.gFile _ hf, loadBody_eq,
      and_self]

/-- Witness of C12: the period drops from 1 s to 0.1 s after `wave.txt` was committed with
wait 1 s. The reload makes the trial length 0.3 s and the buffer 3 + 10 entries long,
while `totaltime` stays at the 4 s computed by the last reset. -/
theorem period_change_frame_witness :
    0 < fastHost.period ∧
    (update fastHost .PERIOD (demoStart 2)).dt = 1 / 10 ∧
    (update fastHost .PERIOD (demoStart 2)).length = 3 / 10 ∧
    (update fastHost .PERIOD (demoStart 2)).wave.length = 13 ∧
    (update fastHost .PERIOD (demoStart 2)).totaltime = 4 ∧
    (update fastHost .PERIOD (demoStart 2)).repeat_ = 2 := by
  have h1 : 0 < fastHost.period := by decide
  obtain ⟨hd, hw, hl, ⟨-, -, -, -, hr, -⟩, ⟨-, -, -, htt⟩, -⟩ :=
    period_change_frame fastHost (demoStart 2) h1
  obtain ⟨-, -, -, -, hr0, -, htt0, -, -, hi0, -, hwt0⟩ := demoStart_fields 2
  have hgf : (demoStart 2).gFile ≠ noFileLoaded := by
    show "wave.txt" ≠ noFileLoaded
    decide
  have hfile : fastHost.file (demoStart 2).gFile = some [1 / 10, 2 / 10, 3 / 10] := by
    show fastHost.file "wave.txt" = _
    simp [fastHost]
  have hc : ⌈(1 : ℚ) / (((10 ^ 8 : ℕ) : ℚ) * (1 / 10 ^ 9))⌉.toNat = 10 := by
    have : (1 : ℚ) / (((10 ^ 8 : ℕ) : ℚ) * (1 / 10 ^ 9)) = ((10 : ℤ) : ℚ) := by norm_num
    rw [this, Int.ceil_intCast]
    rfl
  rw [loadFile_of_ne _ _ _ hgf, loadBody_eq, hfile] at hw hl
  refine ⟨h1, ?_, ?_, ?_, ?_, ?_⟩
  · rw [hd]; norm_num [fastHost]
  · rw [hl]; norm_num [fastHost]
  · rw [hw]
    show ([1 / 10, 2 / 10, 3 / 10] ++ List.replicate
      ⌈(demoStart 2).wait / ((fastHost.period : ℚ) * (1 / 10 ^ 9))⌉.toNat
        (demoStart 2).Ihold).length = 13
    rw [hwt0, show fastHost.period = 10 ^ 8 from rfl, hc]
    simp
  · rw [htt, htt0]
  · rw [hr, hr0]

/-! ### Numbers shown with six significant digits -/

theorem QString_number_zero : QString_number 0 = 0 := by
  simp [QString_number]

/-- Evaluation of the formatting on a number in `(0, 1)`. -/
theorem QString_number_of_small (x : ℚ) (k : ℕ) (n : ℤ) (hpos : 0 < x) (hlt : x < 1)
    (hk : Nat.clog 10 ⌈x⁻¹⌉.toNat = k) (hn : ⌊x * (10 ^ 5 * 10 ^ k) + 1 / 2⌋ = n) :
    QString_number x = (n : ℚ) / (10 ^ 5 * 10 ^ k) := by
  unfold QString_number
  have h1 : |x| = x := abs_of_pos hpos
  rw [if_neg (ne_of_gt hpos)]
  simp only [h1, if_neg (not_le.mpr hlt), if_neg (not_lt.mpr (le_of_lt hpos)), hk, hn]

/-- Evaluation of the formatting on a number that is at least 1. -/
theorem QString_number_of_big (x : ℚ) (k : ℕ) (n : ℤ) (hx : 1 ≤ x)
    (hk : Nat.log 10 ⌊x⌋.toNat = k) (hn : ⌊x * (10 ^ 5 / 10 ^ k) + 1 / 2⌋ = n) :
    QString_number x = (n : ℚ) / (10 ^ 5 / 10 ^ k) := by
  unfold QString_number
  have hpos : 0 < x := lt_of_lt_of_le one_pos hx
  have h1 : |x| = x := abs_of_pos hpos
  rw [if_neg (ne_of_gt hpos)]
  simp only [h1, if_pos hx, if_neg (not_lt.mpr (le_of_lt hpos)), hk, hn]

/-- Evaluation of the formatting on a number that is at most -1. -/
theorem QString_number_of_big_neg (x : ℚ) (k : ℕ) (n : ℤ) (hx : 1 ≤ x)
    (hk : Nat.log 10 ⌊x⌋.toNat = k) (hn : ⌊x * (10 ^ 5 / 10 ^ k) + 1 / 2⌋ = n) :
    QString_number (-x) = -((n : ℚ) / (10 ^ 5 / 10 ^ k)) := by
  unfold QString_number
  have hpos : 0 < x := lt_of_lt_of_le one_pos hx
  have h1 : |(-x)| = x := by rw [abs_neg]; exact abs_of_pos hpos
  have hne : ¬ (-x = 0) := by
    intro h0
    have : x = 0 := by linarith
    exact (ne_of_gt hpos) this
  rw [if_neg hne]
  simp only [h1, if_pos hx, if_pos (neg_lt_zero.mpr hpos), hk, hn]

theorem QString_number_one : QString_number 1 = 1 := by
  have hfl : ⌊(1 : ℚ)⌋ = 1 := by rw [Int.floor_eq_iff]; norm_num
  rw [QString_number_of_big 1 0 100000 (le_refl 1)
    (by
      rw [hfl, show (1 : ℤ).toNat = 1 from rfl]
      norm_num [Nat.log])
    (by rw [Int.floor_eq_iff]; norm_num)]
  norm_num

/-- What a commit stores when the panel holds what `INIT` has just shown. -/
theorem modify_after_init (h : Host) (s : State) :
    (update h .MODIFY (update h .INIT s)).Erev = QString_number (s.Erev * 1000) / 1000 ∧
    (update h .MODIFY (update h .INIT s)).Ihold =
      QString_number (s.Ihold * (1 / 10 ^ 9)) * 10 ^ 9 ∧
    (update h .MODIFY (update h .INIT s)).gain = QString_number s.gain ∧
    (update h .MODIFY (update h .INIT s)).wait = QString_number s.wait ∧
    (update h .MODIFY (update h .INIT s)).repeat_ = QString_number s.repeat_ ∧
    (update h .MODIFY (update h .INIT s)).gFile = s.gFile := by
  by_cases hf : (updateInit s).gui.fileName = noFileLoaded
  · simp only [update, updateModify_eq_noFile h _ hf]
    exact ⟨rfl, rfl, rfl, rfl, rfl, rfl⟩
  · simp only [update, updateModify_eq h _ hf]
    exact ⟨rfl, rfl, rfl, rfl, rfl, rfl⟩

/-- C17 as the claim states it fails. With a stored holding current of 1464843.75 (entered
as `0.00146484375`), `INIT` shows `1464843.75 * 1e-9 = 0.00146484375` through
`QString::number` as `0.00146484`, and committing that gives the holding current
`0.00146484 * 1e9 = 1464840`, not the one the module had. -/
theorem init_modify_loses_digits :
    demoFine.Ihold = 146484375 / 100 ∧
    (update demoHost .INIT demoFine).gui.holdingCurrent = 146484 / 10 ^ 8 ∧
    (update demoHost .MODIFY (update demoHost .INIT demoFine)).Ihold = 1464840 ∧
    (update demoHost .MODIFY (update demoHost .INIT demoFine)).Ihold ≠ demoFine.Ihold := by
  obtain ⟨-, -, -, -, -, hih, -⟩ :=
    commitOf_fields demoHost "wave.txt" (-70) 1 1 (146484375 / 10 ^ 11) 2 (by decide)
  have hI : demoFine.Ihold = 146484375 / 100 := by
    rw [show demoFine.Ihold = _ from hih]; norm_num
  have hx : demoFine.Ihold * (1 / 10 ^ 9) = 146484375 / 10 ^ 11 := by
    rw [hI]; norm_num
  have hc : ⌈((146484375 : ℚ) / 10 ^ 11)⁻¹⌉ = 683 := by
    rw [Int.ceil_eq_iff]; norm_num
  have hnum : QString_number (146484375 / 10 ^ 11) = 146484 / 10 ^ 8 := by
    rw [QString_number_of_small (146484375 / 10 ^ 11) 3 146484 (by norm_num) (by norm_num)
      (by
        rw [hc, show (683 : ℤ).toNat = 683 from rfl]
        norm_num [Nat.clog])
      (by rw [Int.floor_eq_iff]; norm_num)]
    norm_num
  have hshown : (update demoHost .INIT demoFine).gui.holdingCurrent = 146484 / 10 ^ 8 := by
    show QString_number (demoFine.Ihold * (1 / 10 ^ 9)) = _
    rw [hx, hnum]
  have hback : (update demoHost .MODIFY (update demoHost .INIT demoFine)).Ihold = 1464840 := by
    rw [(modify_after_init demoHost demoFine).2.1, hx, hnum]; norm_num
  refine ⟨hI, hshown, hback, ?_⟩
  rw [hback, hI]; norm_num

/-- C17, amended. `INIT` shows `Erev * 1000`, `Ihold * 1e-9`, `gain`, `wait` and `repeat`,
each through `QString::number`, which keeps 6 significant digits, and `MODIFY` commits the
shown numbers as `value / 1000`, `value * 1e9` and as they are. Committing what `INIT`
shows therefore gives back the same `Erev`, `Ihold`, `gain`, `wait` and `repeat` whenever
the five shown numbers survive the formatting unchanged, and for `Erev` and `Ihold` only
then; the file path always comes back. -/
theorem init_modify_inverse (h : Host) (s : State) (_hdt : 0 < s.dt) :
    ((update h .MODIFY (update h .INIT s)).Erev = QString_number (s.Erev * 1000) / 1000 ∧
      (update h .MODIFY (update h .INIT s)).Ihold =
        QString_number (s.Ihold * (1 / 10 ^ 9)) * 10 ^ 9 ∧
      (update h .MODIFY (update h .INIT s)).gain = QString_number s.gain ∧
      (update h .MODIFY (update h .INIT s)).wait = QString_number s.wait ∧
      (update h .MODIFY (update h .INIT s)).repeat_ = QString_number s.repeat_ ∧
      (update h .MODIFY (update h .INIT s)).gFile = s.gFile) ∧
    (QString_number (s.Erev * 1000) = s.Erev * 1000 →
      QString_number (s.Ihold * (1 / 10 ^ 9)) = s.Ihold * (1 / 10 ^ 9) →
      QString_number s.gain = s.gain → QString_number s.wait = s.wait →
      QString_number s.repeat_ = s.repeat_ →
      (update h .MODIFY (update h .INIT s)).Erev = s.Erev ∧
      (update h .MODIFY (update h .INIT s)).Ihold = s.Ihold ∧
      (update h .MODIFY (update h .INIT s)).gain = s.gain ∧
      (update h .MODIFY (update h .INIT s)).wait = s.wait ∧
      (update h .MODIFY (update h .INIT s)).repeat_ = s.repeat_) ∧
    ((update h .MODIFY (update h .INIT s)).Erev = s.Erev ↔
      QString_number (s.Erev * 1000) = s.Erev * 1000) ∧
    ((update h .MODIFY (update h .INIT s)).Ihold = s.Ihold ↔
      QString_number (s.Ihold * (1 / 10 ^ 9)) = s.Ihold * (1 / 10 ^ 9)) := by
  obtain ⟨he, hi, hg, hw, hr, hf⟩ := modify_after_init h s
  refine ⟨⟨he, hi, hg, hw, hr, hf⟩, ?_, ?_, ?_⟩
  · intro h1 h2 h3 h4 h5
    rw [he, hi, hg, hw, hr, h1, h2, h3, h4, h5]
    exact ⟨by ring, by ring, rfl, rfl, rfl⟩
  · rw [he]
    constructor
    · intro heq
      have : QString_number (s.Erev * 1000) = QString_number (s.Erev * 1000) / 1000 * 1000 := by
        ring
      rw [this, heq]
    · intro heq
      rw [heq]; ring
  · rw [hi]
    constructor
    · intro heq
      have : QString_number (s.Ihold * (1 / 10 ^ 9)) =
          QString_number (s.Ihold * (1 / 10 ^ 9)) * 10 ^ 9 * (1 / 10 ^ 9) := by ring
      rw [this, heq]
    · intro heq
      rw [heq]; ring

/-- Witness of C17: the freshly constructed module, whose shown numbers -70, 0, 1, 1, 1
all have fewer than 6 significant digits; committing what `INIT` shows gives back
`Erev` = -0.07 V, holding current 0, gain 1, wait 1 s and one trial. -/
theorem init_modify_inverse_witness :
    0 < (construct demoHost).dt ∧
    (update demoHost .MODIFY (update demoHost .INIT (construct demoHost))).Erev =
      (construct demoHost).Erev ∧
    (update demoHost .MODIFY (update demoHost .INIT (construct demoHost))).Ihold =
      (construct demoHost).Ihold ∧
    (update demoHost .MODIFY (update demoHost .INIT (construct demoHost))).gain =
      (construct demoHost).gain ∧
    (update demoHost .MODIFY (update demoHost .INIT (construct demoHost))).wait =
      (construct demoHost).wait ∧
    (update demoHost .MODIFY (update demoHost .INIT (construct demoHost))).repeat_ =
      (construct demoHost).repeat_ := by
  have h1 : 0 < (construct demoHost).dt := by
    rw [(construct_fields demoHost).1]; norm_num [demoHost]
  have hE : (construct demoHost).Erev * 1000 = -70 := by
    show (-(70 / 1000) : ℚ) * 1000 = -70
    norm_num
  have hI : (construct demoHost).Ihold * (1 / 10 ^ 9) = 0 := by
    show (0 : ℚ) * (1 / 10 ^ 9) = 0
    norm_num
  have h70 : QString_number (-70) = -70 := by
    have hfl : ⌊(70 : ℚ)⌋ = 70 := by rw [Int.floor_eq_iff]; norm_num
    rw [QString_number_of_big_neg 70 1 700000 (by norm_num)
      (by
        rw [hfl, show (70 : ℤ).toNat = 70 from rfl]
        norm_num [Nat.log])
      (by rw [Int.floor_eq_iff]; norm_num)]
    norm_num
  exact ⟨h1, (init_modify_inverse demoHost (construct demoHost) h1).2.1
    (by rw [hE, h70]) (by rw [hI, QString_number_zero])
    (by show QString_number 1 = 1; exact QString_number_one)
    (by show QString_number 1 = 1; exact QString_number_one)
    (by show QString_number 1 = 1; exact QString_number_one)⟩

/-! ## The step with an unchecked read -/

/-- The whole effect of a step, whichever branch it takes and whatever it reads. -/
theorem executeRaw_eq (beyond : ℕ → ℚ) (in0 in1 : ℚ) (s : State) :
    executeRaw beyond in0 in1 s =
      { s with
        Vm := in0
        systime := (s.count : ℚ) * s.dt
        dataPoints :=
          if s.plotRaster = true ∧ in1 = 1 then
            s.dataPoints ++ [((s.count : ℚ) * s.dt - s.totaltime * (s.trial : ℚ),
              ((s.trial + 1 : ℕ) : ℚ))]
          else s.dataPoints
        output :=
          if (s.trial : ℚ) < s.repeat_ then
            -1 * s.wave.getD s.idx (beyond s.idx) * (in0 - s.Erev) * s.gain
          else 0
        active := if (s.trial : ℚ) < s.repeat_ then s.active else false
        count := s.count + 1
        idx :=
          if (s.count : ℚ) * s.dt > s.totaltime * ((s.trial + 1 : ℕ) : ℚ) then 0
          else if (s.trial : ℚ) < s.repeat_ then s.idx + 1 else s.idx
        trial :=
          if (s.count : ℚ) * s.dt > s.totaltime * ((s.trial + 1 : ℕ) : ℚ) then s.trial + 1
          else s.trial } := by
  unfold executeRaw
  by_cases hb : (s.count : ℚ) * s.dt > s.totaltime * ((s.trial + 1 : ℕ) : ℚ) <;>
  by_cases hp : s.plotRaster = true ∧ in1 = 1 <;>
  by_cases hrun : (s.trial : ℚ) < s.repeat_ <;>
  simp only [hrun, hb, hp, pause, updatePause, if_true, if_false, and_self, Bool.not_true]

/-- Whenever the checked step returns, the unchecked one gives the same state. -/
theorem execute_some_raw (beyond : ℕ → ℚ) (in0 in1 : ℚ) (s t : State)
    (h : execute in0 in1 s = some t) : executeRaw beyond in0 in1 s = t := by
  by_cases hrun : (s.trial : ℚ) < s.repeat_
  · cases hget : s.wave[s.idx]? with
    | none =>
      have hlen : s.wave.length ≤ s.idx := by
        by_contra hc
        rw [List.getElem?_eq_getElem (not_le.mp hc)] at hget
        exact Option.noConfusion hget
      rw [execute_out_of_range s in0 in1 hrun hlen] at h
      exact Option.noConfusion h
    | some w =>
      rw [execute_active_eq s in0 in1 w hrun hget] at h
      have hd : s.wave.getD s.idx (beyond s.idx) = w := by
        rw [List.getD_eq_getElem?_getD, hget]
        rfl
      rw [executeRaw_eq, ← Option.some.inj h]
      simp only [hrun, if_true, hd]
  · rw [execute_complete_eq s in0 in1 (not_lt.mp hrun)] at h
    rw [executeRaw_eq, ← Option.some.inj h]
    simp only [hrun, if_false]

theorem runRaw_snoc (beyond : ℕ → ℚ) (s : State) (ins : List (ℚ × ℚ)) (i : ℚ × ℚ) :
    runRaw beyond s (ins ++ [i]) = executeRaw beyond i.1 i.2 (runRaw beyond s ins) := by
  simp only [runRaw, List.foldl_append, List.foldl_cons, List.foldl_nil]

/-- Whenever the checked run returns, the unchecked one gives the same state. -/
theorem run_some_raw (beyond : ℕ → ℚ) (ins : List (ℚ × ℚ)) (s t : State)
    (h : run s ins = some t) : runRaw beyond s ins = t := by
  induction ins generalizing s with
  | nil =>
    simp only [run] at h
    exact Option.some.inj h
  | cons i rest ih =>
    simp only [run] at h
    cases hstep : execute i.1 i.2 s with
    | none =>
      rw [hstep] at h
      exact Option.noConfusion h
    | some m =>
      rw [hstep] at h
      have hm := execute_some_raw beyond i.1 i.2 s m hstep
      show runRaw beyond (executeRaw beyond i.1 i.2 s) rest = t
      rw [hm]
      exact ih m h

/-- C13: in every step, whichever branch it takes and whatever it reads, the elapsed time
it computes is `count * dt` for the tick count it finds, the tick count goes up by exactly
one, and the trial index goes up by exactly one together with the cursor being reset to 0
if and only if that elapsed time is `> totaltime * (trial + 1)`; otherwise the trial index
is unchanged. Where `execute` returns, it returns this very state. -/
theorem step_trial_boundary (beyond : ℕ → ℚ) (in0 in1 : ℚ) (s : State) :
    (executeRaw beyond in0 in1 s).systime = (s.count : ℚ) * s.dt ∧
    (executeRaw beyond in0 in1 s).count = s.count + 1 ∧
    (((executeRaw beyond in0 in1 s).trial = s.trial + 1 ∧
        (executeRaw beyond in0 in1 s).idx = 0) ↔
      (s.count : ℚ) * s.dt > s.totaltime * ((s.trial + 1 : ℕ) : ℚ)) ∧
    (¬ (s.count : ℚ) * s.dt > s.totaltime * ((s.trial + 1 : ℕ) : ℚ) →
      (executeRaw beyond in0 in1 s).trial = s.trial) ∧
    (∀ t, execute in0 in1 s = some t → t = executeRaw beyond in0 in1 s) := by
  refine ⟨by rw [executeRaw_eq], by rw [executeRaw_eq], ?_, ?_,
    fun t ht => (execute_some_raw beyond in0 in1 s t ht).symm⟩ <;> rw [executeRaw_eq]
  · by_cases hb : (s.count : ℚ) * s.dt > s.totaltime * ((s.trial + 1 : ℕ) : ℚ)
    · simp only [hb, if_true, and_self]
    · simp only [hb, if_false, iff_false, not_and]
      intro h
      exact absurd h (Nat.ne_of_lt (Nat.lt_succ_self _))
  · intro hb
    simp only [hb, if_false]

/-- C15: in every step, whichever branch it takes, a point is sent on the raster signal
if and only if raster plotting is on and the spike input equals 1, and the point sent is
`(systime - totaltime * trial, trial + 1)` with the elapsed time `count * dt` of this step
and the trial index the step finds, before its boundary test. Where `execute` returns,
it returns this very state. -/
theorem step_spike_event (beyond : ℕ → ℚ) (in0 in1 : ℚ) (s : State) :
    (s.plotRaster = true ∧ in1 = 1 →
      (executeRaw beyond in0 in1 s).dataPoints =
        s.dataPoints ++ [((s.count : ℚ) * s.dt - s.totaltime * (s.trial : ℚ), (s.trial : ℚ) + 1)]) ∧
    (¬ (s.plotRaster = true ∧ in1 = 1) →
      (executeRaw beyond in0 in1 s).dataPoints = s.dataPoints) ∧
    (∀ t, execute in0 in1 s = some t → t = executeRaw beyond in0 in1 s) := by
  refine ⟨fun hp => ?_, fun hp => ?_,
    fun t ht => (execute_some_raw beyond in0 in1 s t ht).symm⟩ <;> rw [executeRaw_eq]
  · simp only [hp, and_self, if_true, Nat.cast_add, Nat.cast_one]
  · simp only [hp, if_false]

/-- C16: a step never writes the loaded data or the configuration. The buffer `wave`, the
trial length, `totaltime`, `dt`, `Erev`, `gain`, `wait`, `Ihold`, `repeat` and the file
path are the same after the step as before, and so is every other member except `Vm`,
the elapsed time, the command output, the cursor, the tick count, the trial index and
the active flag (the pause signal); the only other trace of a step is the point it may
send on the raster signal. Where `execute` returns, it returns this very state. -/
theorem step_frame (beyond : ℕ → ℚ) (in0 in1 : ℚ) (s : State) :
    ((executeRaw beyond in0 in1 s).wave = s.wave ∧
      (executeRaw beyond in0 in1 s).length = s.length ∧
      (executeRaw beyond in0 in1 s).totaltime = s.totaltime ∧
      (executeRaw beyond in0 in1 s).dt = s.dt ∧
      (executeRaw beyond in0 in1 s).Erev = s.Erev ∧
      (executeRaw beyond in0 in1 s).gain = s.gain ∧
      (executeRaw beyond in0 in1 s).wait = s.wait ∧
      (executeRaw beyond in0 in1 s).Ihold = s.Ihold ∧
      (executeRaw beyond in0 in1 s).repeat_ = s.repeat_ ∧
      (executeRaw beyond in0 in1 s).gFile = s.gFile) ∧
    executeRaw beyond in0 in1 s =
      { s with
        Vm := (executeRaw beyond in0 in1 s).Vm
        systime := (executeRaw beyond in0 in1 s).systime
        output := (executeRaw beyond in0 in1 s).output
        idx := (executeRaw beyond in0 in1 s).idx
        count := (executeRaw beyond in0 in1 s).count
        trial := (executeRaw beyond in0 in1 s).trial
        active := (executeRaw beyond in0 in1 s).active
        dataPoints := (executeRaw beyond in0 in1 s).dataPoints } ∧
    (∀ t, execute in0 in1 s = some t → t = executeRaw beyond in0 in1 s) := by
  refine ⟨?_, ?_, fun t ht => (execute_some_raw beyond in0 in1 s t ht).symm⟩
  · rw [executeRaw_eq]
    exact ⟨rfl, rfl, rfl, rfl, rfl, rfl, rfl, rfl, rfl, rfl⟩
  · conv_lhs => rw [executeRaw_eq]
    rw [executeRaw_eq]

/-! ## Trial progression over many steps -/

/-- A run of unchecked steps leaves the setup fields alone and counts its steps. -/
theorem runRaw_setup (beyond : ℕ → ℚ) (s : State) (ins : List (ℚ × ℚ)) :
    SameSetup s (runRaw beyond s ins) ∧ (runRaw beyond s ins).count = s.count + ins.length := by
  induction ins using List.reverseRecOn with
  | nil => exact ⟨⟨rfl, rfl, rfl, rfl, rfl, rfl, rfl, rfl, rfl, rfl, rfl⟩, rfl⟩
  | append_singleton rest i ih =>
    obtain ⟨⟨hw, hd, hl, htt, hwt, hih, hrp, her, hg, hgf, hpr⟩, hc⟩ := ih
    rw [runRaw_snoc, executeRaw_eq]
    refine ⟨⟨hw, hd, hl, htt, hwt, hih, hrp, her, hg, hgf, hpr⟩, ?_⟩
    show (runRaw beyond s rest).count + 1 = _
    rw [hc, List.length_append, List.length_singleton, Nat.add_assoc]

/-- From a state with tick count 0 and trial index 0, with `0 < dt <= totaltime`: after
`N` steps the trial index `k` is 0 or satisfies `k * totaltime < (N - 1) * dt`, and
`(N - 1) * dt <= (k + 1) * totaltime`, where `(N - 1) * dt` is the elapsed time computed
by the last of the steps. -/
theorem runRaw_trial_bounds (beyond : ℕ → ℚ) (s : State) (ins : List (ℚ × ℚ))
    (hT : 0 < s.totaltime) (hdt : 0 < s.dt) (hle : s.dt ≤ s.totaltime)
    (hc : s.count = 0) (htr : s.trial = 0) :
    ((runRaw beyond s ins).trial = 0 ∨
      ((runRaw beyond s ins).trial : ℚ) * s.totaltime < ((ins.length - 1 : ℕ) : ℚ) * s.dt) ∧
    ((ins.length - 1 : ℕ) : ℚ) * s.dt ≤ (((runRaw beyond s ins).trial : ℚ) + 1) * s.totaltime := by
  induction ins using List.reverseRecOn with
  | nil =>
    refine ⟨Or.inl htr, ?_⟩
    show ((0 : ℕ) : ℚ) * s.dt ≤ ((s.trial : ℚ) + 1) * s.totaltime
    rw [htr]
    simp only [Nat.cast_zero, zero_mul, zero_add, one_mul]
    exact le_of_lt hT
  | append_singleton rest i ih =>
    obtain ⟨hlo, hhi⟩ := ih
    obtain ⟨⟨-, hd, -, htt, -⟩, hcount⟩ := runRaw_setup beyond s rest
    rw [hc, zero_add] at hcount
    have hlen : (rest ++ [i]).length - 1 = rest.length := by
      rw [List.length_append, List.length_singleton]; rfl
    have hx : ((rest.length - 1 : ℕ) : ℚ) * s.dt ≤ (rest.length : ℚ) * s.dt := by
      have : ((rest.length - 1 : ℕ) : ℚ) ≤ (rest.length : ℚ) := by
        exact_mod_cast Nat.sub_le _ _
      exact mul_le_mul_of_nonneg_right this (le_of_lt hdt)
    have hx2 : (rest.length : ℚ) * s.dt ≤ ((rest.length - 1 : ℕ) : ℚ) * s.dt + s.dt := by
      have : (rest.length : ℚ) ≤ ((rest.length - 1 : ℕ) : ℚ) + 1 := by
        have h1 : rest.length ≤ (rest.length - 1) + 1 := by omega
        exact_mod_cast h1
      nlinarith
    rw [runRaw_snoc, executeRaw_eq, hlen]
    simp only [hcount, hd, htt]
    by_cases hb : (rest.length : ℚ) * s.dt >
        s.totaltime * (((runRaw beyond s rest).trial + 1 : ℕ) : ℚ)
    · simp only [hb, if_true]
      push_cast at hb ⊢
      refine ⟨Or.inr (by linarith), ?_⟩
      nlinarith
    · simp only [hb, if_false]
      push_cast at hb
      refine ⟨?_, by linarith⟩
      rcases hlo with h0 | hlt
      · exact Or.inl h0
      · exact Or.inr (lt_of_lt_of_le hlt hx)

/-- With no trial asked for, every step takes the completed branch and the checked run
always returns. -/
theorem run_complete_total (ins : List (ℚ × ℚ)) (s : State) (hrep : s.repeat_ ≤ 0) :
    ∃ t, run s ins = some t := by
  induction ins generalizing s with
  | nil => exact ⟨s, rfl⟩
  | cons i rest ih =>
    have hdone : s.repeat_ ≤ (s.trial : ℚ) := le_trans hrep (Nat.cast_nonneg _)
    have hstep := execute_complete_eq s i.1 i.2 hdone
    obtain ⟨t, ht⟩ := ih _ (show ({ s with
        Vm := i.1
        systime := (s.count : ℚ) * s.dt
        dataPoints :=
          if s.plotRaster = true ∧ i.2 = 1 then
            s.dataPoints ++ [((s.count : ℚ) * s.dt - s.totaltime * (s.trial : ℚ),
              ((s.trial + 1 : ℕ) : ℚ))]
          else s.dataPoints
        output := 0
        active := false
        count := s.count + 1
        idx := if (s.count : ℚ) * s.dt > s.totaltime * ((s.trial + 1 : ℕ) : ℚ) then 0
               else s.idx
        trial := if (s.count : ℚ) * s.dt > s.totaltime * ((s.trial + 1 : ℕ) : ℚ) then s.trial + 1
                 else s.trial } : State).repeat_ ≤ 0 from hrep)
    exact ⟨t, by simp only [run, hstep]; exact ht⟩

/-- C14 as the claim states it fails. With samples 0.1, 0.2, 0.3, dt = 1, wait = 1
(T = 4): after N = 5 calls the trial index is still 0 although `N * dt = 5 > 1 * T`, so
it is not the number of periods crossed by `N * dt`. This holds with two trials asked
for, whatever is read past the buffer, and also with no trial asked for, where every
step takes the completed branch and nothing is read at all. -/
theorem trial_index_not_from_N_dt :
    (demoStart 2).totaltime = 4 ∧ (demoStart 2).dt = 1 ∧
    (∀ beyond : ℕ → ℚ, (runRaw beyond (demoStart 2) (List.replicate 5 (0, 0))).trial = 0) ∧
    (∃ t, run (demoStart 0) (List.replicate 5 (0, 0)) = some t ∧ t.trial = 0) ∧
    ¬ (∀ beyond : ℕ → ℚ, ∀ j : ℕ, 1 ≤ j →
        (j ≤ (runRaw beyond (demoStart 2) (List.replicate 5 (0, 0))).trial ↔
          (j : ℚ) * (demoStart 2).totaltime <
            (((List.replicate 5 ((0 : ℚ), (0 : ℚ))).length : ℕ) : ℚ) * (demoStart 2).dt)) := by
  have key : ∀ (r : ℚ) (beyond : ℕ → ℚ),
      (runRaw beyond (demoStart r) (List.replicate 5 (0, 0))).trial = 0 := by
    intro r beyond
    obtain ⟨-, -, ht, hc, -, hd, htt, -⟩ := demoStart_fields r
    obtain ⟨hlo, -⟩ := runRaw_trial_bounds beyond (demoStart r) (List.replicate 5 (0, 0))
      (by rw [htt]; norm_num) (by rw [hd]; norm_num) (by rw [hd, htt]; norm_num) hc ht
    rcases hlo with h0 | hlt
    · exact h0
    · rw [htt, hd] at hlt
      simp only [List.length_replicate] at hlt
      by_contra hne
      have h1 : (1 : ℚ) ≤ ((runRaw beyond (demoStart r) (List.replicate 5 (0, 0))).trial : ℚ) := by
        exact_mod_cast Nat.one_le_iff_ne_zero.mpr hne
      have h2 : ((5 - 1 : ℕ) : ℚ) * 1 = 4 := by norm_num
      rw [h2] at hlt
      linarith
  obtain ⟨-, -, -, -, -, hd, htt, -⟩ := demoStart_fields 2
  refine ⟨htt, hd, key 2, ?_, ?_⟩
  · obtain ⟨t, ht⟩ := run_complete_total (List.replicate 5 (0, 0)) (demoStart 0)
      (by rw [(demoStart_fields 0).2.2.2.2.1])
    refine ⟨t, ht, ?_⟩
    rw [← run_some_raw (fun _ => 0) _ _ _ ht]
    exact key 0 _
  · intro hall
    have h1 := (hall (fun _ => 0) 1 (le_refl 1)).mpr (by
      rw [htt, hd]; simp only [List.length_replicate]; norm_num)
    rw [key 2] at h1
    exact absurd h1 (by decide)

/-- C14, amended. A step computes the elapsed time `count * dt` from the tick count it
finds and increments the tick count afterwards, so the elapsed time computed by the
`N`-th call is `(N - 1) * dt`. From a reset state with total trial period `T > 0` and
`0 < dt <= T`, after `N` calls the tick count is `N` and the trial index is the number of
integers `j >= 1` with `(N - 1) * dt > j * T`: such a `j` is at most the trial index
exactly when `j * T < (N - 1) * dt`. The next call computes the elapsed time `N * dt` and
either keeps the trial index or raises it by exactly one and leaves the cursor at 0. -/
theorem trial_index_after_calls (beyond : ℕ → ℚ) (s : State) (ins : List (ℚ × ℚ))
    (hT : 0 < s.totaltime) (hdt : 0 < s.dt) (hle : s.dt ≤ s.totaltime)
    (hc : s.count = 0) (htr : s.trial = 0) :
    (runRaw beyond s ins).count = ins.length ∧
    (∀ j : ℕ, 1 ≤ j →
      (j ≤ (runRaw beyond s ins).trial ↔
        (j : ℚ) * s.totaltime < ((ins.length - 1 : ℕ) : ℚ) * s.dt)) ∧
    (∀ v sp : ℚ,
      (executeRaw beyond v sp (runRaw beyond s ins)).systime = (ins.length : ℚ) * s.dt ∧
      ((executeRaw beyond v sp (runRaw beyond s ins)).trial = (runRaw beyond s ins).trial ∨
        ((executeRaw beyond v sp (runRaw beyond s ins)).trial =
            (runRaw beyond s ins).trial + 1 ∧
          (executeRaw beyond v sp (runRaw beyond s ins)).idx = 0))) := by
  obtain ⟨⟨-, hd, -, -⟩, hcount⟩ := runRaw_setup beyond s ins
  rw [hc, zero_add] at hcount
  obtain ⟨hlo, hhi⟩ := runRaw_trial_bounds beyond s ins hT hdt hle hc htr
  refine ⟨hcount, ?_, ?_⟩
  · intro j hj
    constructor
    · intro hjk
      have hk1 : (runRaw beyond s ins).trial ≠ 0 := by omega
      rcases hlo with h0 | hlt
      · exact absurd h0 hk1
      · have : (j : ℚ) ≤ ((runRaw beyond s ins).trial : ℚ) := by exact_mod_cast hjk
        nlinarith
    · intro hlt
      have h1 : (j : ℚ) * s.totaltime < (((runRaw beyond s ins).trial : ℚ) + 1) * s.totaltime :=
        lt_of_lt_of_le hlt hhi
      have h2 : (j : ℚ) < ((runRaw beyond s ins).trial : ℚ) + 1 :=
        lt_of_mul_lt_mul_right h1 (le_of_lt hT)
      have h3 : j < (runRaw beyond s ins).trial + 1 := by exact_mod_cast h2
      omega
  · intro v sp
    rw [executeRaw_eq]
    refine ⟨by show ((runRaw beyond s ins).count : ℚ) * (runRaw beyond s ins).dt = _
               rw [hcount, hd], ?_⟩
    by_cases hb : ((runRaw beyond s ins).count : ℚ) * (runRaw beyond s ins).dt >
        (runRaw beyond s ins).totaltime * (((runRaw beyond s ins).trial + 1 : ℕ) : ℚ)
    · right
      simp only [hb, if_true, and_self]
    · left
      simp only [hb, if_false]

/-- Witness of C14: samples 0.1, 0.2, 0.3, dt = 1, wait = 1, holding value 0, two trials
(T = 4), zeros past the buffer. The trial index is 0 after 5 calls; the 6th call, which
computes the elapsed time 5, makes it 1 and leaves the cursor at 0; it is 1 after 9 calls;
the 10th call, which computes the elapsed time 9, makes it 2; the 11th call then takes the
completed branch, leaving the command at 0 and the module paused. -/
theorem trial_index_after_calls_witness :
    0 < (demoStart 2).totaltime ∧ 0 < (demoStart 2).dt ∧
    (demoStart 2).dt ≤ (demoStart 2).totaltime ∧
    (demoStart 2).count = 0 ∧ (demoStart 2).trial = 0 ∧
    (runRaw (fun _ => 0) (demoStart 2) (List.replicate 5 (0, 0))).trial = 0 ∧
    (runRaw (fun _ => 0) (demoStart 2) (List.replicate 6 (0, 0))).trial = 1 ∧
    (runRaw (fun _ => 0) (demoStart 2) (List.replicate 6 (0, 0))).idx = 0 ∧
    (runRaw (fun _ => 0) (demoStart 2) (List.replicate 9 (0, 0))).trial = 1 ∧
    (runRaw (fun _ => 0) (demoStart 2) (List.replicate 10 (0, 0))).trial = 2 ∧
    (executeRaw (fun _ => 0) 0 0
      (runRaw (fun _ => 0) (demoStart 2) (List.replicate 10 (0, 0)))).output = 0 ∧
    (executeRaw (fun _ => 0) 0 0
      (runRaw (fun _ => 0) (demoStart 2) (List.replicate 10 (0, 0)))).active = false := by
  obtain ⟨-, -, ht, hc, hr, hd, htt, -⟩ := demoStart_fields 2
  have h1 : 0 < (demoStart 2).totaltime := by rw [htt]; norm_num
  have h2 : 0 < (demoStart 2).dt := by rw [hd]; norm_num
  have h3 : (demoStart 2).dt ≤ (demoStart 2).totaltime := by rw [hd, htt]; norm_num
  have hval : ∀ n : ℕ, ∀ j : ℕ, 1 ≤ j →
      (j ≤ (runRaw (fun _ => 0) (demoStart 2) (List.replicate n (0, 0))).trial ↔
        (j : ℚ) * 4 < ((n - 1 : ℕ) : ℚ) * 1) := by
    intro n
    have h := (trial_index_after_calls (fun _ => 0) (demoStart 2) (List.replicate n (0, 0))
      h1 h2 h3 hc ht).2.1
    rw [htt, hd, List.length_replicate] at h
    exact h
  have h5 : (runRaw (fun _ => 0) (demoStart 2) (List.replicate 5 (0, 0))).trial = 0 := by
    have a := (hval 5 1 (le_refl 1))
    have b : ¬ ((1 : ℕ) : ℚ) * 4 < ((5 - 1 : ℕ) : ℚ) * 1 := by norm_num
    have c := mt a.mp b
    omega
  have h6 : (runRaw (fun _ => 0) (demoStart 2) (List.replicate 6 (0, 0))).trial = 1 := by
    have a := (hval 6 1 (le_refl 1)).mpr (by norm_num)
    have b : ¬ ((2 : ℕ) : ℚ) * 4 < ((6 - 1 : ℕ) : ℚ) * 1 := by norm_num
    have c := mt (hval 6 2 (by decide)).mp b
    omega
  have h9 : (runRaw (fun _ => 0) (demoStart 2) (List.replicate 9 (0, 0))).trial = 1 := by
    have a := (hval 9 1 (le_refl 1)).mpr (by norm_num)
    have b : ¬ ((2 : ℕ) : ℚ) * 4 < ((9 - 1 : ℕ) : ℚ) * 1 := by norm_num
    have c := mt (hval 9 2 (by decide)).mp b
    omega
  have h10 : (runRaw (fun _ => 0) (demoStart 2) (List.replicate 10 (0, 0))).trial = 2 := by
    have a := (hval 10 2 (by decide)).mpr (by norm_num)
    have b : ¬ ((3 : ℕ) : ℚ) * 4 < ((10 - 1 : ℕ) : ℚ) * 1 := by norm_num
    have c := mt (hval 10 3 (by decide)).mp b
    omega
  have hidx : (runRaw (fun _ => 0) (demoStart 2) (List.replicate 6 (0, 0))).idx = 0 := by
    have hs : List.replicate 6 ((0 : ℚ), (0 : ℚ)) = List.replicate 5 (0, 0) ++ [(0, 0)] := rfl
    have hstep := ((trial_index_after_calls (fun _ => 0) (demoStart 2)
      (List.replicate 5 (0, 0)) h1 h2 h3 hc ht).2.2 0 0).2
    rw [hs, runRaw_snoc] at h6 ⊢
    rcases hstep with hsame | ⟨-, hzero⟩
    · rw [hsame, h5] at h6
      exact absurd h6 (by decide)
    · exact hzero
  obtain ⟨⟨-, -, -, -, -, -, hrp, -⟩, -⟩ :=
    runRaw_setup (fun _ => 0) (demoStart 2) (List.replicate 10 (0, 0))
  have hdone : ¬ (((runRaw (fun _ => 0) (demoStart 2) (List.replicate 10 (0, 0))).trial : ℚ) <
      (runRaw (fun _ => 0) (demoStart 2) (List.replicate 10 (0, 0))).repeat_) := by
    rw [h10, hrp, hr]; norm_num
  refine ⟨h1, h2, h3, hc, ht, h5, h6, hidx, h9, h10, ?_, ?_⟩
  · rw [executeRaw_eq]
    simp only [hdone, if_false]
  · rw [executeRaw_eq]
    simp only [hdone, if_false]

end DClamp
